import Mathlib

/-!
Shallow embedding of the quantitative analysis engine of the
Money-Come-Terminal repository: the indicator library
(`renderer/analysis/indicators.ts`, `volume.ts`, `atr.ts`),
the support/resistance detector (`supportResistance.ts`),
the signal scoring engine and trade-plan generator (`signalEngine.ts`),
the market sentiment engine (`sentimentEngine.ts`) and the TTL cache of
`hooks/useStockData.ts`.  JavaScript numbers are modelled as exact
rationals (`ℚ`); `null`/`undefined` as `Option`; JS `Math.round`
(half-up, ties toward +∞) as `jsRound`.  Imperative index loops become
maps over `List.range`; loop-carried state becomes structural recursion
on the index.
-/

namespace MCT

/-- One OHLCV bar (`KLineData` in `shared/types.ts`).  The optional
`amount` field is never read by the analysis engine and is omitted. -/
structure KLineData where
  timestamp : ℤ
  open_ : ℚ
  high : ℚ
  low : ℚ
  close : ℚ
  volume : ℚ
deriving DecidableEq, Repr

/-- Placeholder bar used to totalise JS index accesses that the engine
only performs on indices known to be in range. -/
def defaultBar : KLineData := ⟨0, 0, 0, 0, 0, 0⟩

/-- JS `Math.round`: half-up rounding, ties toward +∞. -/
def jsRound (x : ℚ) : ℚ := (⌊x + 1/2⌋ : ℤ)

-- ==================== indicators.ts ====================

/-- `calcSMA(values, period)`: arithmetic mean of the trailing `period`
values, `null` for the first `period-1` positions. -/
def calcSMA (values : List ℚ) (period : ℕ) : List (Option ℚ) :=
  (List.range values.length).map (fun i =>
    if i < period - 1 then none
    else some (((values.drop (i + 1 - period)).take period).sum / period))

/-- The running EMA value of `calcEMA`'s loop at index `i`: the SMA seed
at index `period-1`, the standard recurrence afterwards.  (Below the
seed index the value is never exposed by `calcEMA`.) -/
def emaRec (values : List ℚ) (period : ℕ) : ℕ → ℚ
  | 0 => (values.take period).sum / period
  | i + 1 =>
    if i + 1 < period then (values.take period).sum / period
    else
      let prev := emaRec values period i
      (values.getD (i + 1) 0 - prev) * (2 / (period + 1)) + prev

/-- `calcEMA(values, period)`: `null` before index `period-1`, the loop
value of `emaRec` from there on. -/
def calcEMA (values : List ℚ) (period : ℕ) : List (Option ℚ) :=
  (List.range values.length).map (fun i =>
    if i < period - 1 then none else some (emaRec values period i))

/-- `MAResult` of `indicators.ts`. -/
structure MAResult where
  ma5 : List (Option ℚ)
  ma10 : List (Option ℚ)
  ma20 : List (Option ℚ)
  ma60 : List (Option ℚ)
deriving DecidableEq, Repr

/-- `calcMA(data)`: SMAs of the closes with periods 5/10/20/60. -/
def calcMA (data : List KLineData) : MAResult :=
  let closes := data.map KLineData.close
  ⟨calcSMA closes 5, calcSMA closes 10, calcSMA closes 20, calcSMA closes 60⟩

/-- `MACDResult` of `indicators.ts`. -/
structure MACDResult where
  dif : List (Option ℚ)
  dea : List (Option ℚ)
  histogram : List (Option ℚ)
deriving DecidableEq, Repr

/-- The re-alignment loop of `calcMACD`: walks the `dif` array, consuming
one element of `deaRaw` (the EMA over the defined `dif` subsequence) for
each defined `dif` entry; `deaRaw[deaIdx] ?? null` out of range is
`none`.  Returns the aligned `dea` and `histogram` arrays. -/
def macdAlign : List (Option ℚ) → List (Option ℚ) → List (Option ℚ) × List (Option ℚ)
  | [], _ => ([], [])
  | none :: rest, deaRaw =>
    let (d, h) := macdAlign rest deaRaw
    (none :: d, none :: h)
  | some _x :: rest, [] =>
    let (d, h) := macdAlign rest []
    (none :: d, none :: h)
  | some x :: rest, dv :: deaRest =>
    let (d, h) := macdAlign rest deaRest
    match dv with
    | none => (none :: d, none :: h)
    | some v => (some v :: d, some ((x - v) * 2) :: h)

/-- `calcMACD(data, fast=12, slow=26, signal=9)`. -/
def calcMACD (data : List KLineData) (fastPeriod : ℕ := 12) (slowPeriod : ℕ := 26)
    (signalPeriod : ℕ := 9) : MACDResult :=
  let closes := data.map KLineData.close
  let emaFast := calcEMA closes fastPeriod
  let emaSlow := calcEMA closes slowPeriod
  let dif : List (Option ℚ) :=
    (List.range closes.length).map (fun i =>
      match emaFast.getD i none, emaSlow.getD i none with
      | some f, some s => some (f - s)
      | _, _ => none)
  let validDif := dif.filterMap id
  let deaRaw := calcEMA validDif signalPeriod
  let (dea, histogram) := macdAlign dif deaRaw
  ⟨dif, dea, histogram⟩

/-- Wilder smoothing shared by `calcRSI` and `calcATR`: simple-mean seed
over the first `period` entries at index `period-1`, then
`avg = (avg*(period-1) + x_i)/period`.  (Below the seed index the value
is never exposed.) -/
def wilderAvg (xs : List ℚ) (period : ℕ) : ℕ → ℚ
  | 0 => (xs.take period).sum / period
  | i + 1 =>
    if i + 1 < period then (xs.take period).sum / period
    else (wilderAvg xs period i * (period - 1 : ℕ) + xs.getD (i + 1) 0) / period

/-- Consecutive differences of a list (`closes[i] - closes[i-1]`). -/
def diffs : List ℚ → List ℚ
  | a :: b :: rest => (b - a) :: diffs (b :: rest)
  | _ => []

/-- `calcRSI(data, period=14)`: result index `0` is always `null` (no
prior close to diff against); gains/losses are Wilder-averaged; `RSI =
100` when the average loss is zero, else `100 - 100/(1+g/l)`. -/
def calcRSI (data : List KLineData) (period : ℕ := 14) : List (Option ℚ) :=
  let closes := data.map KLineData.close
  let changes := diffs closes
  let gains := changes.map (fun c => if c > 0 then c else 0)
  let losses := changes.map (fun c => if c < 0 then -c else 0)
  none :: (List.range changes.length).map (fun i =>
    if i < period - 1 then none
    else
      let avgLoss := wilderAvg losses period i
      if avgLoss = 0 then some 100
      else some (100 - 100 / (1 + wilderAvg gains period i / avgLoss)))

/-- `KDJResult` of `indicators.ts`. -/
structure KDJResult where
  k : List (Option ℚ)
  d : List (Option ℚ)
  j : List (Option ℚ)
deriving DecidableEq, Repr

/-- The trailing `period`-bar window ending at index `i` (the loop
`for p = i-period+1 .. i`). -/
def kdjWindow (data : List KLineData) (period i : ℕ) : List KLineData :=
  (data.drop (i + 1 - period)).take period

/-- Maximum of a list; the JS code folds `Math.max` from `-Infinity`
over a nonempty window, which on nonempty lists equals this fold. -/
def listMax : List ℚ → ℚ
  | [] => 0
  | x :: xs => xs.foldl max x

/-- Minimum of a list (fold of `Math.min` from `Infinity`). -/
def listMin : List ℚ → ℚ
  | [] => 0
  | x :: xs => xs.foldl min x

/-- RSV of `calcKDJ` at index `i`: `50` on a flat window, else
`(close - lowestLow)/(highestHigh - lowestLow) * 100`. -/
def rsv (data : List KLineData) (period i : ℕ) : ℚ :=
  let hh := listMax ((kdjWindow data period i).map KLineData.high)
  let ll := listMin ((kdjWindow data period i).map KLineData.low)
  if hh = ll then 50
  else ((data.getD i defaultBar).close - ll) / (hh - ll) * 100

/-- The `(prevK, prevD)` state of `calcKDJ`'s loop entering iteration
`i`: seeded at `(50, 50)`, updated only at iterations `≥ period-1`. -/
def kdjPrev (data : List KLineData) (period : ℕ) : ℕ → ℚ × ℚ
  | 0 => (50, 50)
  | i + 1 =>
    if i < period - 1 then kdjPrev data period i
    else
      let p := kdjPrev data period i
      let r := rsv data period i
      let curK := 2/3 * p.1 + 1/3 * r
      (curK, 2/3 * p.2 + 1/3 * curK)

/-- `calcKDJ(data, period=9)` (Chinese standard KDJ):
`K = (2/3)prevK + (1/3)RSV`, `D = (2/3)prevD + (1/3)K`, `J = 3K - 2D`. -/
def calcKDJ (data : List KLineData) (period : ℕ := 9) : KDJResult :=
  let kAt := fun i => (kdjPrev data period (i + 1)).1
  let dAt := fun i => (kdjPrev data period (i + 1)).2
  { k := (List.range data.length).map (fun i =>
      if i < period - 1 then none else some (kAt i))
    d := (List.range data.length).map (fun i =>
      if i < period - 1 then none else some (dAt i))
    j := (List.range data.length).map (fun i =>
      if i < period - 1 then none else some (3 * kAt i - 2 * dAt i)) }

/-- `BOLLResult` of `indicators.ts`. -/
structure BOLLResult where
  upper : List (Option ℚ)
  middle : List (Option ℚ)
  lower : List (Option ℚ)
deriving DecidableEq, Repr

/-- `calcBOLL(data, period=20, multiplier=2)`.  `Math.sqrt` is
irrational-valued, so the square root is taken as a parameter `sqrtFn`;
no claim depends on the numeric band values, only on which entries are
defined, which is independent of `sqrtFn`. -/
def calcBOLL (sqrtFn : ℚ → ℚ) (data : List KLineData) (period : ℕ := 20)
    (multiplier : ℚ := 2) : BOLLResult :=
  let closes := data.map KLineData.close
  let middle := calcSMA closes period
  let band := fun (sign : ℚ) =>
    (List.range closes.length).map (fun i =>
      match middle.getD i none with
      | none => none
      | some m =>
        let sumSqDiff := (((closes.drop (i + 1 - period)).take period).map
          (fun c => (c - m) ^ 2)).sum
        some (m + sign * multiplier * sqrtFn (sumSqDiff / period)))
  ⟨band 1, middle, band (-1)⟩

-- ==================== volume.ts ====================

/-- The cumulative loop of `calcOBV` starting from `obv` with previous
close `prevClose`. -/
def obvLoop (prevClose obv : ℚ) : List KLineData → List ℚ
  | [] => []
  | b :: rest =>
    let obv' :=
      if b.close > prevClose then obv + b.volume
      else if b.close < prevClose then obv - b.volume
      else obv
    obv' :: obvLoop b.close obv' rest

/-- `calcOBV(data)`: `obv[0] = volume[0]`, then cumulative ±volume by
close direction (entries are all defined; the TS return type is
`(number | null)[]`). -/
def calcOBV : List KLineData → List (Option ℚ)
  | [] => []
  | b :: rest => (some b.volume :: (obvLoop b.close b.volume rest).map some)

/-- `calcVWAP(data, period=20)`: trailing-window volume-weighted typical
price `(H+L+C)/3`; `null` during warm-up and on zero-volume windows. -/
def calcVWAP (data : List KLineData) (period : ℕ := 20) : List (Option ℚ) :=
  (List.range data.length).map (fun i =>
    if i < period - 1 then none
    else
      let w := (data.drop (i + 1 - period)).take period
      let sumPV := (w.map (fun b => (b.high + b.low + b.close) / 3 * b.volume)).sum
      let sumV := (w.map KLineData.volume).sum
      if sumV = 0 then none else some (sumPV / sumV))

/-- Up/down move counts over consecutive pairs of a list (the counting
loop of `getOBVTrend`). -/
def upDownCounts : List ℚ → ℕ × ℕ
  | a :: b :: rest =>
    let (u, d) := upDownCounts (b :: rest)
    if b > a then (u + 1, d) else if b < a then (u, d + 1) else (u, d)
  | _ => (0, 0)

/-- `getOBVTrend(obv, lookback=10)`: over the last `lookback` valid OBV
values, `1` if up-moves exceed 1.5× down-moves, `-1` for the reverse,
else `0`. -/
def getOBVTrend (obv : List (Option ℚ)) (lookback : ℕ := 10) : ℤ :=
  let valid := obv.filterMap id
  if valid.length < lookback then 0
  else
    let recent := valid.drop (valid.length - lookback)
    let (upCount, downCount) := upDownCounts recent
    if (upCount : ℚ) > (downCount : ℚ) * (3/2) then 1
    else if (downCount : ℚ) > (upCount : ℚ) * (3/2) then -1
    else 0

-- ==================== atr.ts ====================

/-- True ranges after the first bar:
`max(high-low, |high-prevClose|, |low-prevClose|)`. -/
def trueRangesAux (prevClose : ℚ) : List KLineData → List ℚ
  | [] => []
  | b :: rest =>
    max (b.high - b.low) (max |b.high - prevClose| |b.low - prevClose|) ::
      trueRangesAux b.close rest

/-- True-range series: the first bar's TR is `high - low`. -/
def trueRanges : List KLineData → List ℚ
  | [] => []
  | b :: rest => (b.high - b.low) :: trueRangesAux b.close rest

/-- `calcATR(data, period=14)`: all `null` when fewer than 2 bars, else
Wilder-smoothed true range (same pattern as the RSI averages). -/
def calcATR (data : List KLineData) (period : ℕ := 14) : List (Option ℚ) :=
  if data.length < 2 then data.map (fun _ => none)
  else
    let trs := trueRanges data
    (List.range trs.length).map (fun i =>
      if i < period - 1 then none else some (wilderAvg trs period i))

/-- `ATRStopLoss` of `atr.ts`. -/
structure ATRStopLoss where
  longStopLoss : ℚ
  shortStopLoss : ℚ
  atrValue : ℚ
deriving DecidableEq, Repr

/-- `calcATRStopLoss(data, atrMultiplier=2, atrPeriod=14)`: `null` when
the last ATR entry is absent or there is no data, else
`close ∓ ATR * multiplier`. -/
def calcATRStopLoss (data : List KLineData) (atrMultiplier : ℚ := 2)
    (atrPeriod : ℕ := 14) : Option ATRStopLoss :=
  match (calcATR data atrPeriod).getLast?, data.getLast? with
  | some (some lastATR), some lastBar =>
    some ⟨lastBar.close - lastATR * atrMultiplier,
          lastBar.close + lastATR * atrMultiplier, lastATR⟩
  | _, _ => none

/-- `calcPositionSize(entryPrice, stopLoss, riskPercentage=0.02)`:
risk-based position fraction capped at 25%; `0` when the per-share risk
is zero (no division by zero). -/
def calcPositionSize (entryPrice stopLoss : ℚ) (riskPercentage : ℚ := 1/50) : ℚ :=
  let riskPerShare := |entryPrice - stopLoss|
  if riskPerShare = 0 then 0
  else min (riskPercentage * entryPrice / riskPerShare) (1/4)

-- ==================== supportResistance.ts ====================

/-- Pivot type of `supportResistance.ts`. -/
inductive PivotType
  | high
  | low
deriving DecidableEq, Repr

/-- A detected pivot point. -/
structure PivotPoint where
  index : ℕ
  price : ℚ
  type : PivotType
deriving DecidableEq, Repr

/-- `findPivots(data, lookback=5)`: bar `i` (with a full symmetric
window) is a pivot high when its high strictly exceeds every other high
in `[i-lookback, i+lookback]`; symmetrically for pivot lows.  Ties
disqualify. -/
def findPivots (data : List KLineData) (lookback : ℕ := 5) : List PivotPoint :=
  (List.range data.length).flatMap (fun i =>
    if lookback ≤ i ∧ i + lookback < data.length then
      let bar := data.getD i defaultBar
      let neigh := (List.range (2 * lookback + 1)).map (fun k => i - lookback + k)
      let isHigh := neigh.all (fun j =>
        j == i || decide ((data.getD j defaultBar).high < bar.high))
      let isLow := neigh.all (fun j =>
        j == i || decide (bar.low < (data.getD j defaultBar).low))
      (if isHigh then [⟨i, bar.high, PivotType.high⟩] else []) ++
        (if isLow then [⟨i, bar.low, PivotType.low⟩] else [])
    else [])

/-- The greedy clustering loop of `clusterPriceLevels`, with the cluster
list kept in reverse (the head is the cluster currently being grown).
A price joins the current cluster when `|p - avg| / avg < tolerance`
(the JS code does not take the absolute value of the denominator). -/
def clusterLoop (tolerance : ℚ) : List ℚ → List (List ℚ) → List (List ℚ)
  | [], acc => acc
  | p :: rest, [] => clusterLoop tolerance rest [[p]]
  | p :: rest, c :: cs =>
    let clusterAvg := c.sum / (c.length : ℚ)
    if |p - clusterAvg| / clusterAvg < tolerance then
      clusterLoop tolerance rest ((c ++ [p]) :: cs)
    else clusterLoop tolerance rest ([p] :: c :: cs)

/-- `clusterPriceLevels(prices, tolerance=0.02)`: sort ascending (JS
`sort((a,b) => a-b)` is a stable ascending sort, modelled by insertion
sort), cluster greedily against the running cluster mean, drop clusters
with fewer than 2 members, return cluster means sorted ascending. -/
def clusterPriceLevels (prices : List ℚ) (tolerance : ℚ := 1/50) : List ℚ :=
  match prices.insertionSort (· ≤ ·) with
  | [] => []
  | p0 :: rest =>
    (((clusterLoop tolerance rest [[p0]]).reverse.filter
        (fun c => 2 ≤ c.length)).map (fun c => c.sum / (c.length : ℚ))).insertionSort (· ≤ ·)

/-- `SRLevels` of `supportResistance.ts`. -/
structure SRLevels where
  support : List ℚ
  resistance : List ℚ
deriving DecidableEq, Repr

/-- `calcSupportResistance(data, lookback=5, tolerance=0.015)`: empty
below `lookback*3` bars; pools pivot highs and lows, clusters them, and
splits the clustered levels by the current price (nearest 3 each,
support descending, resistance ascending). -/
def calcSupportResistance (data : List KLineData) (lookback : ℕ := 5)
    (tolerance : ℚ := 3/200) : SRLevels :=
  if data.length < lookback * 3 then ⟨[], []⟩
  else
    let pivots := findPivots data lookback
    let currentPrice := (data.getD (data.length - 1) defaultBar).close
    let highPrices := (pivots.filter (fun p => p.type == PivotType.high)).map PivotPoint.price
    let lowPrices := (pivots.filter (fun p => p.type == PivotType.low)).map PivotPoint.price
    let allLevels := clusterPriceLevels (highPrices ++ lowPrices) tolerance
    { support := ((allLevels.filter (fun l => decide (l < currentPrice))).insertionSort
        (· ≥ ·)).take 3
      resistance := ((allLevels.filter (fun l => decide (l > currentPrice))).insertionSort
        (· ≤ ·)).take 3 }

/-- `calcSRScore(currentPrice, sr, volumeIncreasing)`: +10/+5 within 2%
above the nearest support (by volume trend), −5/−10 within 2% below the
nearest resistance, clamped to [−10, 10]; 0 when no levels exist. -/
def calcSRScore (currentPrice : ℚ) (sr : SRLevels) (volumeIncreasing : Bool) : ℚ :=
  if sr.support.length = 0 ∧ sr.resistance.length = 0 then 0
  else
    let supportScore : ℚ :=
      match sr.support with
      | [] => 0
      | nearestSupport :: _ =>
        let distToSupport := (currentPrice - nearestSupport) / currentPrice
        if distToSupport < 1/50 ∧ 0 ≤ distToSupport then
          (if volumeIncreasing then 10 else 5)
        else 0
    let resistanceScore : ℚ :=
      match sr.resistance with
      | [] => 0
      | nearestResistance :: _ =>
        let distToResistance := (nearestResistance - currentPrice) / currentPrice
        if distToResistance < 1/50 ∧ 0 ≤ distToResistance then
          (if volumeIncreasing then -5 else -10)
        else 0
    max (-10) (min 10 (supportScore + resistanceScore))

-- ==================== signalEngine.ts ====================

/-- `lastValid(arr)`: the last non-null entry, if any. -/
def lastValid (arr : List (Option ℚ)) : Option ℚ :=
  arr.reverse.findSome? id

/-- `lastN(arr, n)`: the last (up to) `n` non-null entries, in original
order. -/
def lastN (arr : List (Option ℚ)) (n : ℕ) : List ℚ :=
  let valid := arr.filterMap id
  valid.drop (valid.length - n)

/-- Trend score (±40): MA alignment (±20) plus MACD crosses / histogram
confirmation (±20), clamped. -/
def calcTrendScore (data : List KLineData) : ℚ :=
  let ma := calcMA data
  let macd := calcMACD data
  let maScore : ℚ :=
    match lastValid ma.ma5, lastValid ma.ma10, lastValid ma.ma20 with
    | some ma5, some ma10, some ma20 =>
      if ma5 > ma10 ∧ ma10 > ma20 then 20
      else if ma5 < ma10 ∧ ma10 < ma20 then -20
      else if ma5 > ma10 then 10
      else if ma5 < ma10 then -10
      else 0
    | _, _, _ => 0
  let lastDIF := lastN macd.dif 3
  let lastDEA := lastN macd.dea 3
  let lastHist := lastN macd.histogram 3
  let macdScore : ℚ :=
    if 2 ≤ lastDIF.length ∧ 2 ≤ lastDEA.length then
      let prevDIF := lastDIF.getD (lastDIF.length - 2) 0
      let currDIF := lastDIF.getD (lastDIF.length - 1) 0
      let prevDEA := lastDEA.getD (lastDEA.length - 2) 0
      let currDEA := lastDEA.getD (lastDEA.length - 1) 0
      if prevDIF ≤ prevDEA ∧ currDIF > currDEA then 20
      else if prevDIF ≥ prevDEA ∧ currDIF < currDEA then -20
      else if 2 ≤ lastHist.length then
        let histTrend := lastHist.getD (lastHist.length - 1) 0 -
          lastHist.getD (lastHist.length - 2) 0
        if histTrend > 0 ∧ currDIF > currDEA then 10
        else if histTrend < 0 ∧ currDIF < currDEA then -10
        else 0
      else 0
    else 0
  max (-40) (min 40 (maScore + macdScore))

/-- Oscillator score (±30): RSI zone/turn signals (±15) plus KDJ
crossovers (±15), clamped. -/
def calcOscillatorScore (data : List KLineData) : ℚ :=
  let rsi := calcRSI data 14
  let lastRSI := lastN rsi 3
  let rsiScore : ℚ :=
    if 2 ≤ lastRSI.length then
      let currRSI := lastRSI.getD (lastRSI.length - 1) 0
      let prevRSI := lastRSI.getD (lastRSI.length - 2) 0
      if currRSI < 30 ∧ currRSI > prevRSI then 15
      else if currRSI > 70 ∧ currRSI < prevRSI then -15
      else if currRSI < 40 ∧ currRSI > prevRSI then 8
      else if currRSI > 60 ∧ currRSI < prevRSI then -8
      else 0
    else 0
  let kdj := calcKDJ data
  let lastK := lastN kdj.k 3
  let lastD := lastN kdj.d 3
  let kdjScore : ℚ :=
    if 2 ≤ lastK.length ∧ 2 ≤ lastD.length then
      let prevK := lastK.getD (lastK.length - 2) 0
      let currK := lastK.getD (lastK.length - 1) 0
      let prevD := lastD.getD (lastD.length - 2) 0
      let currD := lastD.getD (lastD.length - 1) 0
      if prevK ≤ prevD ∧ currK > currD ∧ currK < 30 then 15
      else if prevK ≥ prevD ∧ currK < currD ∧ currK > 70 then -15
      else if prevK ≤ prevD ∧ currK > currD then 8
      else if prevK ≥ prevD ∧ currK < currD then -8
      else 0
    else 0
  max (-30) (min 30 (rsiScore + kdjScore))

/-- Volume score (±20): OBV trend vs price direction (±10) plus close vs
20-period VWAP (±10), clamped. -/
def calcVolumeScore (data : List KLineData) : ℚ :=
  let obv := calcOBV data
  let obvTrend := getOBVTrend obv
  let priceUp := 2 ≤ data.length ∧
    (data.getD (data.length - 1) defaultBar).close >
      (data.getD (data.length - 2) defaultBar).close
  let obvScore : ℚ :=
    if obvTrend = 1 ∧ priceUp then 10
    else if obvTrend = -1 ∧ ¬priceUp then -10
    else if obvTrend = 1 ∧ ¬priceUp then 5
    else if obvTrend = -1 ∧ priceUp then -5
    else 0
  let currentPrice := (data.getD (data.length - 1) defaultBar).close
  let vwapScore : ℚ :=
    match lastValid (calcVWAP data 20) with
    | some lastVWAP => if currentPrice > lastVWAP then 10 else -10
    | none => 0
  max (-20) (min 20 (obvScore + vwapScore))

/-- `SignalLevel` of `shared/types.ts`. -/
inductive SignalLevel
  | strong_buy
  | buy
  | neutral
  | sell
  | strong_sell
deriving DecidableEq, Repr

/-- `classifySignal(total)`: strict thresholds 60/30/−30/−60. -/
def classifySignal (total : ℚ) : SignalLevel × String :=
  if total > 60 then (SignalLevel.strong_buy, "强烈买入")
  else if total > 30 then (SignalLevel.buy, "建议买入")
  else if total > -30 then (SignalLevel.neutral, "观望")
  else if total > -60 then (SignalLevel.sell, "建议卖出")
  else (SignalLevel.strong_sell, "强烈卖出")

/-- `SignalScore` of `shared/types.ts`. -/
structure SignalScore where
  total : ℚ
  trend : ℚ
  trendMax : ℚ
  oscillator : ℚ
  oscillatorMax : ℚ
  volume : ℚ
  volumeMax : ℚ
  supportResistance : ℚ
  supportResistanceMax : ℚ
  level : SignalLevel
  label : String
deriving DecidableEq, Repr

/-- Trade direction (`'long' | 'short' | 'neutral'` in `shared/types.ts`;
the generator only ever emits `long`/`short`). -/
inductive Direction
  | long
  | short
  | neutral
deriving DecidableEq, Repr

/-- `TradePlanData` of `shared/types.ts`. -/
structure TradePlanData where
  entryPrice : ℚ
  stopLoss : ℚ
  targetPrice : ℚ
  riskRewardRatio : ℚ
  positionSizePct : ℚ
  atrValue : ℚ
  direction : Direction
deriving DecidableEq, Repr

/-- `generateTradePlan(data, signal, sr)`: no plan when neutral or when
the ATR stop is unavailable; stop from `calcATRStopLoss`, target from
the nearest level beyond a 1:1 risk distance else a 2:1 multiple,
risk/reward and position size derived, outputs rounded. -/
def generateTradePlan (data : List KLineData) (signal : SignalScore)
    (sr : SRLevels) : Option TradePlanData :=
  if signal.level = SignalLevel.neutral then none
  else
    let currentPrice := (data.getD (data.length - 1) defaultBar).close
    match calcATRStopLoss data with
    | none => none
    | some atrStop =>
      let isBullish := signal.total > 0
      let stopTarget : ℚ × ℚ :=
        if isBullish then
          let stopLoss := atrStop.longStopLoss
          let riskAmount := currentPrice - stopLoss
          (stopLoss,
            if 0 < sr.resistance.length ∧
                sr.resistance.getD 0 0 > currentPrice + riskAmount then
              sr.resistance.getD 0 0
            else currentPrice + riskAmount * 2)
        else
          let stopLoss := atrStop.shortStopLoss
          let riskAmount := stopLoss - currentPrice
          (stopLoss,
            if 0 < sr.support.length ∧
                sr.support.getD 0 0 < currentPrice - riskAmount then
              sr.support.getD 0 0
            else currentPrice - riskAmount * 2)
      let stopLoss := stopTarget.1
      let targetPrice := stopTarget.2
      let riskRewardRatio := |targetPrice - currentPrice| / |currentPrice - stopLoss|
      let positionSizePct := calcPositionSize currentPrice stopLoss * 100
      some
        { entryPrice := currentPrice
          stopLoss := jsRound (stopLoss * 100) / 100
          targetPrice := jsRound (targetPrice * 100) / 100
          riskRewardRatio := jsRound (riskRewardRatio * 100) / 100
          positionSizePct := jsRound (positionSizePct * 10) / 10
          atrValue := jsRound (atrStop.atrValue * 1000) / 1000
          direction := if isBullish then Direction.long else Direction.short }

/-- `AnalysisResult` of `shared/types.ts`.  The `indicators` field
(`collectIndicators`, a display-only snapshot of the latest value of
each indicator) is not modelled: no claim refers to it, and its
Bollinger component is irrational-valued (`Math.sqrt`). -/
structure AnalysisResult where
  signal : SignalScore
  tradePlan : Option TradePlanData
  supportLevels : List ℚ
  resistanceLevels : List ℚ
deriving DecidableEq, Repr

/-- `runAnalysis(data)`: `null` below 60 bars; otherwise the four
dimension scores, their sum classified into a signal, the
support/resistance levels, and the derived trade plan. -/
def runAnalysis (data : List KLineData) : Option AnalysisResult :=
  if data.length < 60 then none
  else
    let trendScore := calcTrendScore data
    let oscillatorScore := calcOscillatorScore data
    let volumeScore := calcVolumeScore data
    let sr := calcSupportResistance data
    let currentPrice := (data.getD (data.length - 1) defaultBar).close
    let volumeIncreasing : Bool :=
      decide (5 ≤ data.length ∧
        (data.getD (data.length - 1) defaultBar).volume >
          ((data.getD (data.length - 2) defaultBar).volume +
            (data.getD (data.length - 3) defaultBar).volume) / 2)
    let srScore := calcSRScore currentPrice sr volumeIncreasing
    let total := trendScore + oscillatorScore + volumeScore + srScore
    let levelLabel := classifySignal total
    let signal : SignalScore :=
      { total := total
        trend := trendScore, trendMax := 40
        oscillator := oscillatorScore, oscillatorMax := 30
        volume := volumeScore, volumeMax := 20
        supportResistance := srScore, supportResistanceMax := 10
        level := levelLabel.1, label := levelLabel.2 }
    let tradePlan := generateTradePlan data signal sr
    some
      { signal := signal
        tradePlan := tradePlan
        supportLevels := sr.support
        resistanceLevels := sr.resistance }

-- ==================== sentimentEngine.ts ====================

/-- `clamp(value, min, max)`. -/
def clamp (value mi ma : ℚ) : ℚ := max mi (min ma value)

/-- Numeric fields of `IndexQuote` read by the sentiment engine
(`pct_chg` and `vol`); the remaining quote/display fields are unused. -/
structure IndexQuote where
  pct_chg : ℚ
  vol : ℚ
deriving DecidableEq, Repr

/-- `MarketBreadth` counts of `shared/types.ts` (the `date` string is
unused by the engine). -/
structure MarketBreadth where
  advanceCount : ℚ
  declineCount : ℚ
  flatCount : ℚ
  limitUpCount : ℚ
  limitDownCount : ℚ
  totalCount : ℚ
deriving DecidableEq, Repr

/-- `NorthboundFlow` of `shared/types.ts` (numeric fields). -/
structure NorthboundFlow where
  hgt : ℚ
  sgt : ℚ
  northMoney : ℚ
deriving DecidableEq, Repr

/-- `MarketOverview` restricted to the fields `computeSentiment` reads
(`margin`/`stats`/`date` are unused by the sentiment engine). -/
structure MarketOverview where
  indices : List IndexQuote
  breadth : MarketBreadth
  northbound : List NorthboundFlow
deriving DecidableEq, Repr

/-- Advance/decline ratio component (0–100). -/
def scoreAdvanceDecline (overview : MarketOverview) : ℚ :=
  let total := overview.breadth.advanceCount + overview.breadth.declineCount +
    overview.breadth.flatCount
  if total = 0 then 50
  else clamp (overview.breadth.advanceCount / total * 100) 0 100

/-- Limit-up rate component: linear ramp, 3%+ of the market is full
score. -/
def scoreLimitUp (overview : MarketOverview) : ℚ :=
  if overview.breadth.totalCount = 0 then 0
  else
    let rate := overview.breadth.limitUpCount / overview.breadth.totalCount
    clamp (rate / (3/100) * 100) 0 100

/-- Limit-down penalty component: inverse linear ramp. -/
def scoreLimitDown (overview : MarketOverview) : ℚ :=
  if overview.breadth.totalCount = 0 then 100
  else
    let rate := overview.breadth.limitDownCount / overview.breadth.totalCount
    clamp (100 - rate / (3/100) * 100) 0 100

/-- Index-trend component: mean `pct_chg` mapped linearly, −3% ↦ 0,
+3% ↦ 100. -/
def scoreIndexTrend (overview : MarketOverview) : ℚ :=
  if overview.indices = [] then 50
  else
    let avgChg := (overview.indices.map IndexQuote.pct_chg).sum /
      (overview.indices.length : ℚ)
    clamp ((avgChg + 3) / 6 * 100) 0 100

/-- Northbound-flow component: latest day's net flow mapped linearly,
−10000 ↦ 0, +10000 ↦ 100. -/
def scoreNorthbound (overview : MarketOverview) : ℚ :=
  match overview.northbound.getLast? with
  | none => 50
  | some latest => clamp ((latest.northMoney + 10000) / 20000 * 100) 0 100

/-- Volume component: a documented placeholder, neutral 50 (the source
checks the first index's volume but returns 50 on every path). -/
def scoreVolume (overview : MarketOverview) : ℚ :=
  match overview.indices with
  | [] => 50
  | idx :: _ => if idx.vol = 0 then 50 else 50

/-- `SentimentLevel` of `shared/types.ts`. -/
inductive SentimentLevel
  | freezing
  | cold
  | neutral
  | warm
  | hot
deriving DecidableEq, Repr

/-- `classifySentiment(score)`: thresholds 80/60/40/20 (inclusive). -/
def classifySentiment (score : ℚ) : SentimentLevel × String :=
  if score ≥ 80 then (SentimentLevel.hot, "沸点")
  else if score ≥ 60 then (SentimentLevel.warm, "活跃")
  else if score ≥ 40 then (SentimentLevel.neutral, "正常")
  else if score ≥ 20 then (SentimentLevel.cold, "低迷")
  else (SentimentLevel.freezing, "冰点")

/-- `SentimentComponent` of `shared/types.ts`. -/
structure SentimentComponent where
  name : String
  value : ℚ
  weight : ℚ
deriving DecidableEq, Repr

/-- `SentimentScore` of `shared/types.ts`. -/
structure SentimentScore where
  total : ℚ
  level : SentimentLevel
  label : String
  components : List SentimentComponent
deriving DecidableEq, Repr

/-- `computeSentiment(overview)`: six weighted components, total equal to
the half-up-rounded weighted sum, classified into a level. -/
def computeSentiment (overview : MarketOverview) : SentimentScore :=
  let components : List SentimentComponent :=
    [⟨"涨跌比", scoreAdvanceDecline overview, 1/4⟩,
     ⟨"涨停率", scoreLimitUp overview, 3/20⟩,
     ⟨"跌停率", scoreLimitDown overview, 3/20⟩,
     ⟨"指数趋势", scoreIndexTrend overview, 1/5⟩,
     ⟨"北向资金", scoreNorthbound overview, 3/20⟩,
     ⟨"成交量", scoreVolume overview, 1/10⟩]
  let total := jsRound ((components.map (fun c => c.value * c.weight)).sum)
  let levelLabel := classifySentiment total
  { total := total, level := levelLabel.1, label := levelLabel.2,
    components := components }

-- ==================== hooks/useStockData.ts (TTL cache) ====================

/-- `CacheEntry` of `useStockData.ts`: payload, creation time
(`timestamp`, ms epoch) and time-to-live. -/
structure CacheEntry where
  data : List KLineData
  timestamp : ℤ
  ttl : ℤ
deriving DecidableEq

/-- `getCachedData(key)` at time `now`: misses return `null`; an entry
older than its TTL (`now - timestamp > ttl`, strictly) is deleted and
reported absent; otherwise the stored payload is returned.  The cache
`Map` is modelled as an association list; `Map.delete` removes the
key's binding. -/
def getCachedData (cache : List (String × CacheEntry)) (key : String) (now : ℤ) :
    Option (List KLineData) × List (String × CacheEntry) :=
  match cache.lookup key with
  | none => (none, cache)
  | some entry =>
    if now - entry.timestamp > entry.ttl then
      (none, cache.eraseP (fun kv => kv.1 == key))
    else (some entry.data, cache)

-- ==================== General lemmas ====================

lemma length_range_map {β : Type} (f : ℕ → β) (n : ℕ) :
    ((List.range n).map f).length = n := by
  simp

lemma getElem?_range_map {β : Type} (f : ℕ → β) {n i : ℕ} (hi : i < n) :
    ((List.range n).map f)[i]? = some (f i) := by
  rw [List.getElem?_map, List.getElem?_range hi]
  rfl

lemma getD_range_map {β : Type} (f : ℕ → β) (d : β) {n i : ℕ} (hi : i < n) :
    ((List.range n).map f).getD i d = f i := by
  rw [List.getD_eq_getElem?_getD, getElem?_range_map f hi, Option.getD_some]

lemma getD_range_map_ge {β : Type} (f : ℕ → β) (d : β) {n i : ℕ} (hi : n ≤ i) :
    ((List.range n).map f).getD i d = d := by
  rw [List.getD_eq_getElem?_getD, List.getElem?_eq_none (by simpa using hi),
    Option.getD_none]

lemma getLast?_range_map {β : Type} (f : ℕ → β) {n : ℕ} (hn : 0 < n) :
    ((List.range n).map f).getLast? = some (f (n - 1)) := by
  rw [List.getLast?_eq_getElem?, length_range_map, getElem?_range_map f (by omega)]

lemma wilderAvg_step (xs : List ℚ) (period i : ℕ) (h : period ≤ i + 1) :
    wilderAvg xs period (i + 1) =
      (wilderAvg xs period i * ((period - 1 : ℕ) : ℚ) + xs.getD (i + 1) 0) / period := by
  rw [wilderAvg, if_neg (by omega)]

lemma trueRangesAux_length (c : ℚ) (l : List KLineData) :
    (trueRangesAux c l).length = l.length := by
  induction l generalizing c with
  | nil => rfl
  | cons b rest ih => simp [trueRangesAux, ih]

lemma trueRanges_length (l : List KLineData) :
    (trueRanges l).length = l.length := by
  cases l with
  | nil => rfl
  | cons b rest => simp [trueRanges, trueRangesAux_length]

-- ==================== Concrete input series ====================

/-- The spec's example scenario: 60 bars with `open=100`, `high=101`,
`low=99`, `close=100`, `volume=1000`, ascending timestamps. -/
def constBars : List KLineData :=
  (List.range 60).map (fun i => ⟨i, 100, 101, 99, 100, 1000⟩)

/-- A 60-bar series with negative prices: 55 flat bars at −100 followed
by 5 flat bars at −110 (high = low = close, volume 1000). -/
def descBars : List KLineData :=
  (List.range 60).map (fun i =>
    if i < 55 then ⟨i, -100, -100, -100, -100, 1000⟩
    else ⟨i, -110, -110, -110, -110, 1000⟩)

/-- Ten bars with `high = low = close = i+1` (strictly increasing). -/
def kdjBars : List KLineData :=
  (List.range 10).map (fun i => ⟨i, (i : ℚ) + 1, (i : ℚ) + 1, (i : ℚ) + 1, (i : ℚ) + 1, 1000⟩)

/-- Twenty bars with `high = low = close = i+1` (strictly increasing). -/
def incBars : List KLineData :=
  (List.range 20).map (fun i => ⟨i, (i : ℚ) + 1, (i : ℚ) + 1, (i : ℚ) + 1, (i : ℚ) + 1, 1000⟩)

/-- The short trade plan produced on `descBars`. -/
def descPlan : TradePlanData :=
  { entryPrice := -110, stopLoss := -5447/50, targetPrice := -2803/25,
    riskRewardRatio := 2, positionSizePct := -2071/10,
    atrValue := 531/1000, direction := Direction.short }

set_option maxRecDepth 40000 in
lemma calcTrendScore_descBars : calcTrendScore descBars = -20 := by
  with_unfolding_all decide

set_option maxRecDepth 40000 in
lemma calcOscillatorScore_descBars : calcOscillatorScore descBars = 0 := by
  with_unfolding_all decide

set_option maxRecDepth 40000 in
lemma calcVolumeScore_descBars : calcVolumeScore descBars = -20 := by
  with_unfolding_all decide

set_option maxRecDepth 40000 in
lemma calcSR_descBars : calcSupportResistance descBars = ⟨[], []⟩ := by
  with_unfolding_all decide

set_option maxRecDepth 40000 in
lemma wilderAvg_descTR_59 :
    wilderAvg (trueRanges descBars) 14 59 = 142805/268912 := by
  have h56 : wilderAvg (trueRanges descBars) 14 56 = 65/98 := by
    with_unfolding_all decide
  have g57 : (trueRanges descBars)[57]?.getD 0 = 0 := by with_unfolding_all decide
  have g58 : (trueRanges descBars)[58]?.getD 0 = 0 := by with_unfolding_all decide
  have g59 : (trueRanges descBars)[59]?.getD 0 = 0 := by with_unfolding_all decide
  have e57 := wilderAvg_step (trueRanges descBars) 14 56 (by norm_num)
  have e58 := wilderAvg_step (trueRanges descBars) 14 57 (by norm_num)
  have e59 := wilderAvg_step (trueRanges descBars) 14 58 (by norm_num)
  norm_num at e57 e58 e59
  rw [e59, e58, e57, h56, g57, g58, g59]
  norm_num

set_option maxRecDepth 40000 in
lemma calcATR_getLast_descBars :
    (calcATR descBars 14).getLast? = some (some (142805/268912)) := by
  have hlen : (trueRanges descBars).length = 60 := by
    rw [trueRanges_length]; with_unfolding_all decide
  unfold calcATR
  rw [if_neg (by with_unfolding_all decide)]
  dsimp only
  rw [hlen, getLast?_range_map _ (by norm_num)]
  norm_num [wilderAvg_descTR_59]

set_option maxRecDepth 40000 in
lemma calcATRStopLoss_descBars :
    calcATRStopLoss descBars =
      some ⟨-14932965/134456, -14647355/134456, 142805/268912⟩ := by
  unfold calcATRStopLoss
  rw [calcATR_getLast_descBars,
    show descBars.getLast? = some ⟨59, -110, -110, -110, -110, 1000⟩ from by
      with_unfolding_all decide]
  dsimp only
  rw [Option.some.injEq, ATRStopLoss.mk.injEq]
  norm_num

set_option maxRecDepth 40000 in
lemma runAnalysis_descBars_plan :
    (runAnalysis descBars).map (fun r => r.tradePlan) = some (some descPlan) := by
  have hl : descBars.length = 60 := by decide
  have h59 : descBars.getD 59 defaultBar = ⟨59, -110, -110, -110, -110, 1000⟩ := by
    with_unfolding_all decide
  have h58 : descBars.getD 58 defaultBar = ⟨58, -110, -110, -110, -110, 1000⟩ := by
    with_unfolding_all decide
  have h57 : descBars.getD 57 defaultBar = ⟨57, -110, -110, -110, -110, 1000⟩ := by
    with_unfolding_all decide
  have hsr : calcSRScore (-110) ⟨[], []⟩
      (decide (5 ≤ 60 ∧ (1000 : ℚ) > (1000 + 1000) / 2)) = 0 := by
    with_unfolding_all decide
  unfold runAnalysis
  rw [if_neg (by decide)]
  simp only [calcTrendScore_descBars, calcOscillatorScore_descBars,
    calcVolumeScore_descBars, calcSR_descBars, hl,
    show (60 : ℕ) - 1 = 59 from rfl, show (60 : ℕ) - 2 = 58 from rfl,
    show (60 : ℕ) - 3 = 57 from rfl, h59, h58, h57, hsr,
    show (-20 : ℚ) + 0 + -20 + 0 = -40 from by norm_num, Option.map_some']
  unfold generateTradePlan
  rw [if_neg (by with_unfolding_all decide), calcATRStopLoss_descBars]
  dsimp only
  simp only [hl, show (60 : ℕ) - 1 = 59 from rfl, h59]
  simp only [descPlan, Option.some.injEq, TradePlanData.mk.injEq]
  norm_num [jsRound, calcPositionSize, min_def,
    abs_of_pos (show (0 : ℚ) < 142805/67228 from by norm_num),
    abs_of_pos (show (0 : ℚ) < 142805/134456 from by norm_num)]

-- ==================== Bound lemmas ====================

lemma clamp_le_le (lo hi s : ℚ) (h : lo ≤ hi) :
    lo ≤ max lo (min hi s) ∧ max lo (min hi s) ≤ hi :=
  ⟨le_max_left _ _, max_le h (min_le_left _ _)⟩

lemma jsRound_nonneg {x : ℚ} (h : 0 ≤ x) : 0 ≤ jsRound x := by
  unfold jsRound
  have : (0 : ℤ) ≤ ⌊x + 1/2⌋ := Int.floor_nonneg.mpr (by linarith)
  exact_mod_cast this

lemma jsRound_le {x b : ℚ} (hb : jsRound b = b) (h : x ≤ b) : jsRound x ≤ b := by
  rw [← hb]
  unfold jsRound
  have : ⌊x + 1/2⌋ ≤ ⌊b + 1/2⌋ := Int.floor_le_floor (by linarith)
  exact_mod_cast this

-- ==================== C2 ====================

/-- C2: the composite classification uses strict thresholds: `total > 60`
is strong_buy, `> 30` buy, `> -30` neutral, `> -60` sell, else
strong_sell; a total of exactly 60 classifies as buy and exactly 30 as
neutral. -/
theorem classifySignal_thresholds :
    (∀ total : ℚ,
      (60 < total → (classifySignal total).1 = SignalLevel.strong_buy) ∧
      (30 < total → total ≤ 60 → (classifySignal total).1 = SignalLevel.buy) ∧
      (-30 < total → total ≤ 30 → (classifySignal total).1 = SignalLevel.neutral) ∧
      (-60 < total → total ≤ -30 → (classifySignal total).1 = SignalLevel.sell) ∧
      (total ≤ -60 → (classifySignal total).1 = SignalLevel.strong_sell)) ∧
    (classifySignal 60).1 = SignalLevel.buy ∧
    (classifySignal 30).1 = SignalLevel.neutral := by
  refine ⟨fun total => ⟨?_, ?_, ?_, ?_, ?_⟩, ?_, ?_⟩
  · intro h
    unfold classifySignal
    rw [if_pos h]
  · intro h1 h2
    unfold classifySignal
    rw [if_neg (by linarith), if_pos h1]
  · intro h1 h2
    unfold classifySignal
    rw [if_neg (by linarith), if_neg (by linarith), if_pos h1]
  · intro h1 h2
    unfold classifySignal
    rw [if_neg (by linarith), if_neg (by linarith), if_neg (by linarith),
      if_pos h1]
  · intro h
    unfold classifySignal
    rw [if_neg (by linarith), if_neg (by linarith), if_neg (by linarith),
      if_neg (by linarith)]
  · unfold classifySignal
    rw [if_neg (by norm_num), if_pos (by norm_num)]
  · unfold classifySignal
    rw [if_neg (by norm_num), if_neg (by norm_num), if_pos (by norm_num)]

/-- Witness for C2: a total of 100 classifies as strong_buy. -/
theorem classifySignal_thresholds_witness :
    (classifySignal 100).1 = SignalLevel.strong_buy :=
  (classifySignal_thresholds.1 100).1 (by norm_num)

-- ==================== C4 ====================

/-- C4 counterexample: with no support level, nearest resistance 101 and
price 100 (within 2% below resistance) and rising volume, the code
scores −5, not the −10 the claim states for rising volume. -/
theorem calcSRScore_counterexample :
    calcSRScore 100 ⟨[], [101]⟩ true = -5 ∧
    (0 : ℚ) ≤ (101 - 100) / 100 ∧ ((101 : ℚ) - 100) / 100 < 1/50 ∧
    (-5 : ℚ) ≠ -10 :=
  ⟨by with_unfolding_all decide, by norm_num, by norm_num, by norm_num⟩

/-- C4 amended: within 2% below the nearest resistance (and no support
level in play) the contribution is −5 when volume is rising and −10 when
flat or falling — the code swaps the claim's −10/−5 assignment — and the
returned score is always clamped to [−10, 10]. -/
theorem calcSRScore_resistance_amended :
    (∀ (p : ℚ) (sr : SRLevels) (b : Bool),
      -10 ≤ calcSRScore p sr b ∧ calcSRScore p sr b ≤ 10) ∧
    (∀ (p r : ℚ) (rest : List ℚ) (b : Bool),
      0 ≤ (r - p) / p → (r - p) / p < 1/50 →
      calcSRScore p ⟨[], r :: rest⟩ b = if b then -5 else -10) := by
  constructor
  · intro p sr b
    unfold calcSRScore
    split
    · norm_num
    · exact clamp_le_le _ _ _ (by norm_num)
  · intro p r rest b h0 h1
    unfold calcSRScore
    rw [if_neg (by simp)]
    dsimp only
    rw [if_pos ⟨h1, h0⟩]
    cases b
    · norm_num
    · norm_num

/-- Witness for C4: the amended statement applied at price 100,
resistance 101, rising volume. -/
theorem calcSRScore_resistance_amended_witness :
    calcSRScore 100 ⟨[], [101]⟩ true = if true then -5 else -10 :=
  calcSRScore_resistance_amended.2 100 101 [] true (by norm_num) (by norm_num)

-- ==================== C8 ====================

lemma clamp_mem (v lo hi : ℚ) (h : lo ≤ hi) :
    lo ≤ clamp v lo hi ∧ clamp v lo hi ≤ hi := by
  unfold clamp
  exact clamp_le_le lo hi v h

lemma scoreAdvanceDecline_mem (o : MarketOverview) :
    0 ≤ scoreAdvanceDecline o ∧ scoreAdvanceDecline o ≤ 100 := by
  unfold scoreAdvanceDecline
  dsimp only
  split
  · norm_num
  · exact clamp_mem _ _ _ (by norm_num)

lemma scoreLimitUp_mem (o : MarketOverview) :
    0 ≤ scoreLimitUp o ∧ scoreLimitUp o ≤ 100 := by
  unfold scoreLimitUp
  dsimp only
  split
  · norm_num
  · exact clamp_mem _ _ _ (by norm_num)

lemma scoreLimitDown_mem (o : MarketOverview) :
    0 ≤ scoreLimitDown o ∧ scoreLimitDown o ≤ 100 := by
  unfold scoreLimitDown
  dsimp only
  split
  · norm_num
  · exact clamp_mem _ _ _ (by norm_num)

lemma scoreIndexTrend_mem (o : MarketOverview) :
    0 ≤ scoreIndexTrend o ∧ scoreIndexTrend o ≤ 100 := by
  unfold scoreIndexTrend
  dsimp only
  split
  · norm_num
  · exact clamp_mem _ _ _ (by norm_num)

lemma scoreNorthbound_mem (o : MarketOverview) :
    0 ≤ scoreNorthbound o ∧ scoreNorthbound o ≤ 100 := by
  unfold scoreNorthbound
  split
  · norm_num
  · exact clamp_mem _ _ _ (by norm_num)

lemma scoreVolume_mem (o : MarketOverview) :
    0 ≤ scoreVolume o ∧ scoreVolume o ≤ 100 := by
  unfold scoreVolume
  split
  · norm_num
  · split <;> norm_num

/-- C8: every sentiment component value lies in [0, 100], the component
weights sum to 1, the total is the half-up-rounded weighted sum, and
hence the total is an integer in [0, 100]. -/
theorem computeSentiment_invariants (o : MarketOverview) :
    (∀ c ∈ (computeSentiment o).components, 0 ≤ c.value ∧ c.value ≤ 100) ∧
    ((computeSentiment o).components.map SentimentComponent.weight).sum = 1 ∧
    (computeSentiment o).total =
      jsRound (((computeSentiment o).components.map (fun c => c.value * c.weight)).sum) ∧
    ∃ z : ℤ, (computeSentiment o).total = (z : ℚ) ∧ 0 ≤ z ∧ z ≤ 100 := by
  obtain ⟨ha1, ha2⟩ := scoreAdvanceDecline_mem o
  obtain ⟨hb1, hb2⟩ := scoreLimitUp_mem o
  obtain ⟨hc1, hc2⟩ := scoreLimitDown_mem o
  obtain ⟨hd1, hd2⟩ := scoreIndexTrend_mem o
  obtain ⟨he1, he2⟩ := scoreNorthbound_mem o
  obtain ⟨hf1, hf2⟩ := scoreVolume_mem o
  have hcomp : (computeSentiment o).components =
      [⟨"涨跌比", scoreAdvanceDecline o, 1/4⟩, ⟨"涨停率", scoreLimitUp o, 3/20⟩,
       ⟨"跌停率", scoreLimitDown o, 3/20⟩, ⟨"指数趋势", scoreIndexTrend o, 1/5⟩,
       ⟨"北向资金", scoreNorthbound o, 3/20⟩, ⟨"成交量", scoreVolume o, 1/10⟩] := rfl
  have hsum : (((computeSentiment o).components.map (fun c => c.value * c.weight)).sum) =
      scoreAdvanceDecline o * (1/4) + (scoreLimitUp o * (3/20) +
        (scoreLimitDown o * (3/20) + (scoreIndexTrend o * (1/5) +
          (scoreNorthbound o * (3/20) + (scoreVolume o * (1/10) + 0))))) := by
    rw [hcomp]
    simp [List.sum_cons]
  have hs0 : 0 ≤ (((computeSentiment o).components.map (fun c => c.value * c.weight)).sum) := by
    rw [hsum]; linarith
  have hs100 : (((computeSentiment o).components.map (fun c => c.value * c.weight)).sum) ≤ 100 := by
    rw [hsum]; linarith
  refine ⟨?_, ?_, rfl, ?_⟩
  · intro c hc
    rw [hcomp] at hc
    simp only [List.mem_cons, List.not_mem_nil, or_false] at hc
    rcases hc with rfl | rfl | rfl | rfl | rfl | rfl
    · exact ⟨ha1, ha2⟩
    · exact ⟨hb1, hb2⟩
    · exact ⟨hc1, hc2⟩
    · exact ⟨hd1, hd2⟩
    · exact ⟨he1, he2⟩
    · exact ⟨hf1, hf2⟩
  · rw [hcomp]
    norm_num
  · refine ⟨⌊(((computeSentiment o).components.map (fun c => c.value * c.weight)).sum) + 1/2⌋,
      rfl, Int.floor_nonneg.mpr (by linarith), ?_⟩
    have h1 : ⌊(((computeSentiment o).components.map (fun c => c.value * c.weight)).sum) + 1/2⌋
        ≤ ⌊(201 : ℚ)/2⌋ := Int.floor_le_floor (by linarith)
    have h2 : ⌊(201 : ℚ)/2⌋ = 100 := by norm_num
    omega

/-- Witness for C8: on an empty market overview the advance/decline
component is 50, which the theorem bounds within [0, 100]. -/
theorem computeSentiment_invariants_witness :
    0 ≤ (50 : ℚ) ∧ (50 : ℚ) ≤ 100 :=
  (computeSentiment_invariants ⟨[], ⟨0, 0, 0, 0, 0, 0⟩, []⟩).1
    ⟨"涨跌比", 50, 1/4⟩ (by with_unfolding_all exact List.Mem.head _)

-- ==================== C9 ====================

/-- C9 counterexample: an entry created at 0 with ttl 100, read at
now = 100 (so now − createdAt = ttl, i.e. ≥ ttl) is still returned — the
code only evicts when the age strictly exceeds the TTL. -/
theorem getCachedData_boundary_counterexample :
    (getCachedData [("k", ⟨[], 0, 100⟩)] "k" 100).1 = some [] ∧
    (100 : ℤ) - 0 ≥ 100 :=
  ⟨by decide, by decide⟩

/-- C9 amended: a read returns the stored payload while
`now − createdAt ≤ ttl` (cache unchanged), and when `now − createdAt >
ttl` (strictly) the entry is treated as absent and deleted at read time. -/
theorem getCachedData_ttl_amended :
    ∀ (cache : List (String × CacheEntry)) (key : String) (now : ℤ)
      (entry : CacheEntry), cache.lookup key = some entry →
      (now - entry.timestamp ≤ entry.ttl →
        getCachedData cache key now = (some entry.data, cache)) ∧
      (entry.ttl < now - entry.timestamp →
        getCachedData cache key now = (none, cache.eraseP (fun kv => kv.1 == key))) := by
  intro cache key now entry hl
  unfold getCachedData
  rw [hl]
  dsimp only
  constructor
  · intro h
    rw [if_neg (not_lt.mpr h)]
  · intro h
    rw [if_pos h]

/-- Witness for C9: a fresh entry (age 50 of ttl 100) is returned with
the cache unchanged. -/
theorem getCachedData_ttl_amended_witness :
    getCachedData [("k", ⟨[], 0, 100⟩)] "k" 50 = (some [], [("k", ⟨[], 0, 100⟩)]) :=
  (getCachedData_ttl_amended [("k", ⟨[], 0, 100⟩)] "k" 50 ⟨[], 0, 100⟩
    (by decide)).1 (by decide)


-- ==================== C10 ====================

lemma le_foldl_max (xs : List ℚ) (a : ℚ) :
    a ≤ xs.foldl max a ∧ ∀ x ∈ xs, x ≤ xs.foldl max a := by
  induction xs generalizing a with
  | nil => exact ⟨le_refl _, by intro x hx; cases hx⟩
  | cons y ys ih =>
    refine ⟨le_trans (le_max_left a y) (ih (max a y)).1, ?_⟩
    intro x hx
    rcases List.mem_cons.mp hx with rfl | hx
    · exact le_trans (le_max_right a x) (ih (max a x)).1
    · exact (ih (max a y)).2 x hx

lemma foldl_min_le (xs : List ℚ) (a : ℚ) :
    xs.foldl min a ≤ a ∧ ∀ x ∈ xs, xs.foldl min a ≤ x := by
  induction xs generalizing a with
  | nil => exact ⟨le_refl _, by intro x hx; cases hx⟩
  | cons y ys ih =>
    refine ⟨le_trans (ih (min a y)).1 (min_le_left a y), ?_⟩
    intro x hx
    rcases List.mem_cons.mp hx with rfl | hx
    · exact le_trans (ih (min a x)).1 (min_le_right a x)
    · exact (ih (min a y)).2 x hx

lemma le_listMax {l : List ℚ} {x : ℚ} (hx : x ∈ l) : x ≤ listMax l := by
  cases l with
  | nil => cases hx
  | cons y ys =>
    rcases List.mem_cons.mp hx with rfl | hx
    · exact (le_foldl_max ys x).1
    · exact (le_foldl_max ys y).2 x hx

lemma listMin_le {l : List ℚ} {x : ℚ} (hx : x ∈ l) : listMin l ≤ x := by
  cases l with
  | nil => cases hx
  | cons y ys =>
    rcases List.mem_cons.mp hx with rfl | hx
    · exact (foldl_min_le ys x).1
    · exact (foldl_min_le ys y).2 x hx

lemma getD_mem (data : List KLineData) (i : ℕ) (hi : i < data.length) :
    data.getD i defaultBar ∈ data := by
  rw [List.getD_eq_getElem?_getD, List.getElem?_eq_getElem hi]
  exact List.getElem_mem hi

lemma getD_mem_kdjWindow (data : List KLineData) (period i : ℕ)
    (hp : 1 ≤ period) (hi : i < data.length) :
    data.getD i defaultBar ∈ kdjWindow data period i := by
  have hs : i + 1 - period + (i - (i + 1 - period)) = i := by omega
  have hk : i - (i + 1 - period) < period := by omega
  have h1 : (kdjWindow data period i)[i - (i + 1 - period)]? =
      some (data.getD i defaultBar) := by
    unfold kdjWindow
    rw [List.getElem?_take, if_pos hk, List.getElem?_drop, hs,
      List.getElem?_eq_getElem hi, List.getD_eq_getElem?_getD,
      List.getElem?_eq_getElem hi]
    rfl
  exact List.getElem?_mem h1

/-- On a series whose bars satisfy `low ≤ close ≤ high`, every RSV is in
`[0, 100]` (a flat or empty window yields 50). -/
lemma rsv_mem (data : List KLineData) (period i : ℕ)
    (hbar : ∀ b ∈ data, b.low ≤ b.close ∧ b.close ≤ b.high)
    (hi : i < data.length) :
    0 ≤ rsv data period i ∧ rsv data period i ≤ 100 := by
  unfold rsv
  dsimp only
  split
  · norm_num
  · rename_i hne
    rcases Nat.eq_zero_or_pos period with hp0 | hp
    · exfalso
      apply hne
      subst hp0
      simp [kdjWindow, listMax, listMin]
    · have hmem := getD_mem_kdjWindow data period i hp hi
      have hbarI := hbar _ (getD_mem data i hi)
      have h1 : listMin ((kdjWindow data period i).map KLineData.low) ≤
          (data.getD i defaultBar).low :=
        listMin_le (List.mem_map_of_mem KLineData.low hmem)
      have h2 : (data.getD i defaultBar).high ≤
          listMax ((kdjWindow data period i).map KLineData.high) :=
        le_listMax (List.mem_map_of_mem KLineData.high hmem)
      have hlt : listMin ((kdjWindow data period i).map KLineData.low) <
          listMax ((kdjWindow data period i).map KLineData.high) :=
        lt_of_le_of_ne (by linarith [hbarI.1, hbarI.2]) (Ne.symm hne)
      constructor
      · apply mul_nonneg _ (by norm_num)
        apply div_nonneg (by linarith [hbarI.1]) (by linarith)
      · have hq : ((data.getD i defaultBar).close -
            listMin ((kdjWindow data period i).map KLineData.low)) /
            (listMax ((kdjWindow data period i).map KLineData.high) -
              listMin ((kdjWindow data period i).map KLineData.low)) ≤ 1 := by
          rw [div_le_one (by linarith)]
          linarith [hbarI.2]
        have := mul_le_mul_of_nonneg_right hq (by norm_num : (0:ℚ) ≤ 100)
        simpa using this

/-- On a series whose bars satisfy `low ≤ close ≤ high`, the `(prevK,
prevD)` loop state stays in `[0, 100] × [0, 100]`. -/
lemma kdjPrev_mem (data : List KLineData) (period : ℕ)
    (hbar : ∀ b ∈ data, b.low ≤ b.close ∧ b.close ≤ b.high) :
    ∀ i, i ≤ data.length →
      (0 ≤ (kdjPrev data period i).1 ∧ (kdjPrev data period i).1 ≤ 100) ∧
      (0 ≤ (kdjPrev data period i).2 ∧ (kdjPrev data period i).2 ≤ 100) := by
  intro i
  induction i with
  | zero => intro _; refine ⟨⟨?_, ?_⟩, ?_, ?_⟩ <;> norm_num [kdjPrev]
  | succ n ih =>
    intro hn
    obtain ⟨⟨hk0, hk1⟩, hd0, hd1⟩ := ih (by omega)
    have hr := rsv_mem data period n hbar (by omega)
    obtain ⟨hr0, hr1⟩ := hr
    simp only [kdjPrev]
    split
    · exact ⟨⟨hk0, hk1⟩, hd0, hd1⟩
    · dsimp only
      refine ⟨⟨by linarith, by linarith⟩, by linarith, by linarith⟩

set_option maxRecDepth 40000 in
lemma kdjPrev_kdjBars_10 : kdjPrev kdjBars 9 10 = (700/9, 1700/27) := by
  with_unfolding_all decide

lemma calcKDJ_kdjBars_j9 : (calcKDJ kdjBars 9).j.getD 9 none = some (2900/27) := by
  have h9 : 9 < kdjBars.length := by with_unfolding_all decide
  have hjdef : (calcKDJ kdjBars 9).j = (List.range kdjBars.length).map
      (fun i => if i < 9 - 1 then none
        else some (3 * (kdjPrev kdjBars 9 (i + 1)).1 -
          2 * (kdjPrev kdjBars 9 (i + 1)).2)) := rfl
  rw [hjdef, getD_range_map _ _ h9, if_neg (by norm_num), kdjPrev_kdjBars_10]
  norm_num

set_option maxRecDepth 40000 in
/-- C10: for every price series in which each bar satisfies
`low ≤ close ≤ high`, every defined `K` value and every defined `D`
value of `calcKDJ` lies in `[0, 100]`, while the `J` series is not so
bounded: on the ten-bar strictly increasing series `kdjBars` (whose bars
satisfy the same hypothesis) the `J` value at index 9 is `2900/27 > 100`. -/
theorem calcKDJ_kd_bounded (data : List KLineData) (period : ℕ)
    (hbar : ∀ b ∈ data, b.low ≤ b.close ∧ b.close ≤ b.high) :
    ((∀ i x, (calcKDJ data period).k.getD i none = some x → 0 ≤ x ∧ x ≤ 100) ∧
     (∀ i x, (calcKDJ data period).d.getD i none = some x → 0 ≤ x ∧ x ≤ 100)) ∧
    ((∀ b ∈ kdjBars, b.low ≤ b.close ∧ b.close ≤ b.high) ∧
     (calcKDJ kdjBars 9).j.getD 9 none = some (2900/27) ∧
     ¬ ((2900/27 : ℚ) ≤ 100)) := by
  have hk : (calcKDJ data period).k = (List.range data.length).map
      (fun i => if i < period - 1 then none
        else some ((kdjPrev data period (i + 1)).1)) := rfl
  have hd : (calcKDJ data period).d = (List.range data.length).map
      (fun i => if i < period - 1 then none
        else some ((kdjPrev data period (i + 1)).2)) := rfl
  refine ⟨⟨?_, ?_⟩, by with_unfolding_all decide,
    calcKDJ_kdjBars_j9, by with_unfolding_all decide⟩
  · intro i x h
    rw [hk] at h
    by_cases hi : i < data.length
    · rw [getD_range_map _ _ hi] at h
      by_cases hp : i < period - 1
      · rw [if_pos hp] at h
        exact Option.noConfusion h
      · rw [if_neg hp] at h
        have hb := (kdjPrev_mem data period hbar (i + 1) (by omega)).1
        have hx : (kdjPrev data period (i + 1)).1 = x := by injection h
        rw [hx] at hb
        exact hb
    · rw [getD_range_map_ge _ _ (not_lt.mp hi)] at h
      exact Option.noConfusion h
  · intro i x h
    rw [hd] at h
    by_cases hi : i < data.length
    · rw [getD_range_map _ _ hi] at h
      by_cases hp : i < period - 1
      · rw [if_pos hp] at h
        exact Option.noConfusion h
      · rw [if_neg hp] at h
        have hb := (kdjPrev_mem data period hbar (i + 1) (by omega)).2
        have hx : (kdjPrev data period (i + 1)).2 = x := by injection h
        rw [hx] at hb
        exact hb
    · rw [getD_range_map_ge _ _ (not_lt.mp hi)] at h
      exact Option.noConfusion h

set_option maxRecDepth 40000 in
/-- Witness for C10: on `kdjBars` (all bars satisfy `low ≤ close ≤
high`) the `K` value at index 9 is `700/9 ∈ [0, 100]`. -/
theorem calcKDJ_kd_bounded_witness :
    (∀ b ∈ kdjBars, b.low ≤ b.close ∧ b.close ≤ b.high) ∧
    (calcKDJ kdjBars 9).k.getD 9 none = some (700/9) ∧
    (0 ≤ (700/9 : ℚ) ∧ (700/9 : ℚ) ≤ 100) :=
  ⟨by with_unfolding_all decide, by with_unfolding_all decide,
    ((calcKDJ_kd_bounded kdjBars 9 (by with_unfolding_all decide)).1.1 9 (700/9)
      (by with_unfolding_all decide))⟩


-- ==================== C6 ====================

lemma getD_nonneg {xs : List ℚ} (h : ∀ x ∈ xs, 0 ≤ x) (i : ℕ) : 0 ≤ xs.getD i 0 := by
  rw [List.getD_eq_getElem?_getD]
  rcases hx : xs[i]? with _ | a
  · simp
  · simp only [Option.getD_some]
    exact h a (List.getElem?_mem hx)

lemma wilderAvg_seed (xs : List ℚ) (period : ℕ) {i : ℕ} (hi : i < period) :
    wilderAvg xs period i = (xs.take period).sum / period := by
  cases i with
  | zero => rfl
  | succ n =>
    simp only [wilderAvg]
    rw [if_pos hi]

lemma wilderAvg_nonneg (xs : List ℚ) (period : ℕ) (h : ∀ x ∈ xs, 0 ≤ x) :
    ∀ i, 0 ≤ wilderAvg xs period i := by
  intro i
  induction i with
  | zero =>
    apply div_nonneg _ (Nat.cast_nonneg period)
    exact List.sum_nonneg (fun x hx => h x (List.mem_of_mem_take hx))
  | succ n ih =>
    simp only [wilderAvg]
    split
    · apply div_nonneg _ (Nat.cast_nonneg period)
      exact List.sum_nonneg (fun x hx => h x (List.mem_of_mem_take hx))
    · apply div_nonneg _ (Nat.cast_nonneg period)
      have h1 := getD_nonneg h (n + 1)
      have h2 := mul_nonneg ih (Nat.cast_nonneg (period - 1) : (0:ℚ) ≤ _)
      linarith

lemma sum_eq_zero_iff_of_nonneg (l : List ℚ) (h : ∀ x ∈ l, 0 ≤ x) :
    l.sum = 0 ↔ ∀ x ∈ l, x = 0 := by
  induction l with
  | nil => simp
  | cons a t ih =>
    have ha := h a (List.mem_cons_self a t)
    have hts : 0 ≤ t.sum := List.sum_nonneg (fun x hx => h x (List.mem_cons_of_mem a hx))
    rw [List.sum_cons]
    constructor
    · intro h0
      have ha0 : a = 0 := by linarith
      have ht0 : t.sum = 0 := by linarith
      intro x hx
      rcases List.mem_cons.mp hx with rfl | hx
      · exact ha0
      · exact (ih (fun y hy => h y (List.mem_cons_of_mem a hy))).mp ht0 x hx
    · intro hall
      rw [hall a (List.mem_cons_self a t),
        (ih (fun y hy => h y (List.mem_cons_of_mem a hy))).mpr
          (fun y hy => hall y (List.mem_cons_of_mem a hy))]
      norm_num

lemma take_succ_zero_iff (xs : List ℚ) (n : ℕ) :
    (∀ x ∈ xs.take (n + 1), x = 0) ↔
      (∀ x ∈ xs.take n, x = 0) ∧ xs.getD n 0 = 0 := by
  rcases h : xs[n]? with _ | a
  · rw [List.take_succ, h, List.getD_eq_getElem?_getD, h]
    simp
  · rw [List.take_succ, h, List.getD_eq_getElem?_getD, h]
    simp only [Option.toList_some, Option.getD_some]
    constructor
    · intro hall
      exact ⟨fun x hx => hall x (List.mem_append_left _ hx),
        hall a (List.mem_append_right _ (List.mem_singleton_self a))⟩
    · intro ⟨h1, h2⟩ x hx
      rcases List.mem_append.mp hx with hx | hx
      · exact h1 x hx
      · rw [List.mem_singleton.mp hx]
        exact h2

/-- Wilder smoothing of a nonnegative series (`period ≥ 2`) vanishes at
index `i ≥ period − 1` exactly when all of the first `i + 1` entries
vanish: the recursion never forgets an earlier nonzero entry. -/
lemma wilderAvg_eq_zero_iff (xs : List ℚ) (period : ℕ) (hp : 2 ≤ period)
    (h : ∀ x ∈ xs, 0 ≤ x) :
    ∀ i, period - 1 ≤ i → (wilderAvg xs period i = 0 ↔ ∀ x ∈ xs.take (i + 1), x = 0) := by
  have hper : ((period : ℚ)) ≠ 0 := Nat.cast_ne_zero.mpr (by omega)
  intro i hi
  induction i, hi using Nat.le_induction with
  | base =>
    have hpn : period - 1 + 1 = period := by omega
    rw [hpn, wilderAvg_seed xs period (by omega : period - 1 < period),
      div_eq_zero_iff, or_iff_left hper]
    exact sum_eq_zero_iff_of_nonneg _ (fun x hx => h x (List.mem_of_mem_take hx))
  | succ n hn ih =>
    rw [wilderAvg_step xs period n (by omega), div_eq_zero_iff, or_iff_left hper]
    have hW := wilderAvg_nonneg xs period h n
    have hD := getD_nonneg h (n + 1)
    have hc : (((period - 1 : ℕ) : ℚ)) ≠ 0 := Nat.cast_ne_zero.mpr (by omega)
    have hcnn : (0:ℚ) ≤ ((period - 1 : ℕ) : ℚ) := Nat.cast_nonneg _
    have hmul := mul_nonneg hW hcnn
    rw [take_succ_zero_iff xs (n + 1)]
    constructor
    · intro h0
      have hb0 : xs.getD (n + 1) 0 = 0 := by linarith
      have ha0 : wilderAvg xs period n * ((period - 1 : ℕ) : ℚ) = 0 := by linarith
      have hW0 : wilderAvg xs period n = 0 := by
        rcases mul_eq_zero.mp ha0 with h' | h'
        · exact h'
        · exact absurd h' hc
      exact ⟨ih.mp hW0, hb0⟩
    · intro ⟨h1, h2⟩
      rw [ih.mpr h1, h2]
      ring

/-- C6 counterexample: on the flat 60-bar series every price change is
zero — none is strictly positive — yet `calcRSI` reports `100` at index
14, because the code returns `100` whenever the average loss is zero. -/
theorem calcRSI_100_counterexample :
    (calcRSI constBars 14).getD 14 none = some 100 ∧
    ∀ c ∈ diffs (constBars.map KLineData.close), c = 0 := by
  constructor
  · with_unfolding_all decide
  · with_unfolding_all decide

/-- C6 amended: every defined entry of `calcRSI data period` lies in
`[0, 100]` (any `period`), and for `period ≥ 2` an entry at output index
`j` equals `100` exactly when ALL price changes up to that index (not a
sliding window, and with no strict-positivity requirement) are
nonnegative. -/
theorem calcRSI_bounds_amended (data : List KLineData) (period : ℕ) :
    ∀ j x, (calcRSI data period).getD j none = some x →
      (0 ≤ x ∧ x ≤ 100) ∧
      (2 ≤ period →
        (x = 100 ↔ ∀ c ∈ (diffs (data.map KLineData.close)).take j, 0 ≤ c)) := by
  have hdef : calcRSI data period =
      none :: (List.range (diffs (data.map KLineData.close)).length).map (fun i =>
        if i < period - 1 then none
        else
          if wilderAvg ((diffs (data.map KLineData.close)).map
              (fun c => if c < 0 then -c else 0)) period i = 0 then some 100
          else some (100 - 100 / (1 +
            wilderAvg ((diffs (data.map KLineData.close)).map
              (fun c => if c > 0 then c else 0)) period i /
            wilderAvg ((diffs (data.map KLineData.close)).map
              (fun c => if c < 0 then -c else 0)) period i))) := rfl
  intro j x h
  rw [hdef] at h
  cases j with
  | zero =>
    rw [List.getD_cons_zero] at h
    exact Option.noConfusion h
  | succ i =>
    rw [List.getD_cons_succ] at h
    set chg := diffs (data.map KLineData.close) with hchg
    set losses := chg.map (fun c => if c < 0 then -c else 0) with hlosses
    set gains := chg.map (fun c => if c > 0 then c else 0) with hgains
    have hlossnn : ∀ y ∈ losses, 0 ≤ y := by
      intro y hy
      rw [hlosses] at hy
      obtain ⟨c, _, rfl⟩ := List.mem_map.mp hy
      by_cases hc : c < 0
      · rw [if_pos hc]; linarith
      · rw [if_neg hc]
    have hgainnn : ∀ y ∈ gains, 0 ≤ y := by
      intro y hy
      rw [hgains] at hy
      obtain ⟨c, _, rfl⟩ := List.mem_map.mp hy
      by_cases hc : c > 0
      · rw [if_pos hc]; linarith
      · rw [if_neg hc]
    by_cases hi : i < chg.length
    · rw [getD_range_map _ _ hi] at h
      by_cases hp1 : i < period - 1
      · rw [if_pos hp1] at h
        exact Option.noConfusion h
      · rw [if_neg hp1] at h
        have havgl := wilderAvg_nonneg losses period hlossnn i
        have havgg := wilderAvg_nonneg gains period hgainnn i
        by_cases hz : wilderAvg losses period i = 0
        · rw [if_pos hz] at h
          obtain rfl : (100 : ℚ) = x := by injection h
          refine ⟨⟨by norm_num, le_refl _⟩, ?_⟩
          intro hp2
          rw [eq_self_iff_true, true_iff]
          have hall := (wilderAvg_eq_zero_iff losses period hp2 hlossnn i (by omega)).mp hz
          intro c hc
          have hcl : (if c < 0 then -c else 0) ∈ losses.take (i + 1) := by
            rw [hlosses, ← List.map_take]
            exact List.mem_map_of_mem _ hc
          have h0 := hall _ hcl
          by_cases hc0 : c < 0
          · rw [if_pos hc0] at h0
            linarith
          · exact not_lt.mp hc0
        · rw [if_neg hz] at h
          have hlpos : 0 < wilderAvg losses period i := lt_of_le_of_ne havgl (Ne.symm hz)
          have hratio : 0 ≤ wilderAvg gains period i / wilderAvg losses period i :=
            div_nonneg havgg (le_of_lt hlpos)
          have hden : (0:ℚ) < 1 + wilderAvg gains period i / wilderAvg losses period i := by
            linarith
          have hfrac0 : 0 < 100 / (1 + wilderAvg gains period i / wilderAvg losses period i) :=
            div_pos (by norm_num) hden
          have hfrac1 : 100 / (1 + wilderAvg gains period i / wilderAvg losses period i) ≤ 100 := by
            rw [div_le_iff₀ hden]
            nlinarith
          obtain rfl :
              100 - 100 / (1 + wilderAvg gains period i / wilderAvg losses period i) = x := by
            injection h
          refine ⟨⟨by linarith, by linarith⟩, ?_⟩
          intro hp2
          constructor
          · intro hx100
            exfalso
            have : 100 / (1 + wilderAvg gains period i / wilderAvg losses period i) = 0 := by
              linarith
            linarith
          · intro hall
            exfalso
            apply hz
            apply (wilderAvg_eq_zero_iff losses period hp2 hlossnn i (by omega)).mpr
            intro y hy
            rw [hlosses, ← List.map_take] at hy
            obtain ⟨c, hc, rfl⟩ := List.mem_map.mp hy
            rw [if_neg (not_lt.mpr (hall c hc))]
    · rw [getD_range_map_ge _ _ (not_lt.mp hi)] at h
      exact Option.noConfusion h

/-- Witness for C6: on the strictly increasing 20-bar series, RSI at
output index 14 is `100`, which is in `[0, 100]`, and indeed all changes
up to index 14 are nonnegative. -/
theorem calcRSI_bounds_amended_witness :
    (calcRSI incBars 14).getD 14 none = some 100 ∧
    (0 ≤ (100:ℚ) ∧ (100:ℚ) ≤ 100) ∧
    ((100:ℚ) = 100 ↔ ∀ c ∈ (diffs (incBars.map KLineData.close)).take 14, 0 ≤ c) :=
  ⟨by with_unfolding_all decide,
    (calcRSI_bounds_amended incBars 14 14 100 (by with_unfolding_all decide)).1,
    (calcRSI_bounds_amended incBars 14 14 100 (by with_unfolding_all decide)).2 (by norm_num)⟩


-- ==================== C5 ====================

lemma diffs_length : ∀ l : List ℚ, (diffs l).length = l.length - 1 := by
  intro l
  induction l with
  | nil => rfl
  | cons a t ih =>
    cases t with
    | nil => rfl
    | cons b r =>
      simp only [diffs, List.length_cons] at ih ⊢
      omega

lemma warmup_isSome (n m : ℕ) (g : ℕ → Option ℚ) (hg : ∀ j, (g j).isSome = true) (i : ℕ) :
    (((List.range n).map (fun j => if j < m then none else g j)).getD i none).isSome = true ↔
      i < n ∧ m ≤ i := by
  by_cases hi : i < n
  · rw [getD_range_map _ _ hi]
    by_cases hm : i < m
    · rw [if_pos hm]
      exact iff_of_false (by simp) (by omega)
    · rw [if_neg hm]
      exact iff_of_true (hg i) (by omega)
  · rw [getD_range_map_ge _ _ (not_lt.mp hi)]
    exact iff_of_false (by simp) (by omega)

lemma calcEMA_getD (values : List ℚ) (p k : ℕ) (hk : k < values.length) :
    (calcEMA values p).getD k none =
      if k < p - 1 then none else some (emaRec values p k) := by
  have h : calcEMA values p = (List.range values.length).map
      (fun j => if j < p - 1 then none else some (emaRec values p j)) := rfl
  rw [h, getD_range_map _ _ hk]

lemma macdAlign_cons_none (rest deaRaw : List (Option ℚ)) :
    macdAlign (none :: rest) deaRaw =
      (none :: (macdAlign rest deaRaw).1, none :: (macdAlign rest deaRaw).2) := rfl

lemma macdAlign_cons_some_nil (x : ℚ) (rest : List (Option ℚ)) :
    macdAlign (some x :: rest) [] =
      (none :: (macdAlign rest []).1, none :: (macdAlign rest []).2) := rfl

lemma macdAlign_cons_some_none (x : ℚ) (rest deaRest : List (Option ℚ)) :
    macdAlign (some x :: rest) (none :: deaRest) =
      (none :: (macdAlign rest deaRest).1, none :: (macdAlign rest deaRest).2) := rfl

lemma macdAlign_cons_some_some (x v : ℚ) (rest deaRest : List (Option ℚ)) :
    macdAlign (some x :: rest) (some v :: deaRest) =
      (some v :: (macdAlign rest deaRest).1,
       some ((x - v) * 2) :: (macdAlign rest deaRest).2) := rfl

lemma macdAlign_len : ∀ (dif deaRaw : List (Option ℚ)),
    (macdAlign dif deaRaw).1.length = dif.length ∧
    (macdAlign dif deaRaw).2.length = dif.length := by
  intro dif
  induction dif with
  | nil => intro deaRaw; simp [macdAlign]
  | cons o rest ih =>
    intro deaRaw
    cases o with
    | none =>
      rw [macdAlign_cons_none]
      simp [(ih deaRaw).1, (ih deaRaw).2]
    | some x =>
      cases deaRaw with
      | nil =>
        rw [macdAlign_cons_some_nil]
        simp [(ih []).1, (ih []).2]
      | cons dv deaRest =>
        cases dv with
        | none =>
          rw [macdAlign_cons_some_none]
          simp [(ih deaRest).1, (ih deaRest).2]
        | some v =>
          rw [macdAlign_cons_some_some]
          simp [(ih deaRest).1, (ih deaRest).2]

lemma macdAlign_none_prefix (a : ℕ) : ∀ (l deaRaw : List (Option ℚ)),
    macdAlign (List.replicate a none ++ l) deaRaw =
      (List.replicate a none ++ (macdAlign l deaRaw).1,
       List.replicate a none ++ (macdAlign l deaRaw).2) := by
  induction a with
  | zero => intro l deaRaw; simp
  | succ n ih =>
    intro l deaRaw
    simp only [List.replicate_succ, List.cons_append, macdAlign_cons_none, ih,
      List.cons_append]

lemma macdAlign_somes : ∀ (xs : List ℚ) (deaRaw : List (Option ℚ)) (k : ℕ),
    (macdAlign (xs.map some) deaRaw).1[k]? =
      (if k < xs.length then some (deaRaw.getD k none) else none) ∧
    (macdAlign (xs.map some) deaRaw).2[k]? =
      (if k < xs.length then
        some (match deaRaw.getD k none with
          | none => none
          | some v => some ((xs.getD k 0 - v) * 2))
       else none) := by
  intro xs
  induction xs with
  | nil => intro deaRaw k; constructor <;> simp [macdAlign]
  | cons x rest ih =>
    intro deaRaw k
    cases deaRaw with
    | nil =>
      rw [List.map_cons, macdAlign_cons_some_nil]
      cases k with
      | zero => constructor <;> simp
      | succ q =>
        constructor
        · rw [List.getElem?_cons_succ, (ih [] q).1]
          simp [Nat.succ_lt_succ_iff]
        · rw [List.getElem?_cons_succ, (ih [] q).2]
          simp [Nat.succ_lt_succ_iff]
    | cons dv deaRest =>
      cases dv with
      | none =>
        rw [List.map_cons, macdAlign_cons_some_none]
        cases k with
        | zero => constructor <;> simp
        | succ q =>
          constructor
          · rw [List.getElem?_cons_succ, (ih deaRest q).1]
            simp [Nat.succ_lt_succ_iff]
          · rw [List.getElem?_cons_succ, (ih deaRest q).2]
            simp [Nat.succ_lt_succ_iff]
      | some v =>
        rw [List.map_cons, macdAlign_cons_some_some]
        cases k with
        | zero => constructor <;> simp
        | succ q =>
          constructor
          · rw [List.getElem?_cons_succ, (ih deaRest q).1]
            simp [Nat.succ_lt_succ_iff]
          · rw [List.getElem?_cons_succ, (ih deaRest q).2]
            simp [Nat.succ_lt_succ_iff]

lemma filterMap_id_replicate : ∀ a : ℕ,
    (List.replicate a (none : Option ℚ)).filterMap id = [] := by
  intro a
  induction a with
  | zero => rfl
  | succ n ih =>
    rw [List.replicate_succ]
    simp [ih]


lemma calcSMA_warmup (values : List ℚ) (period i : ℕ) :
    (calcSMA values period).length = values.length ∧
    (((calcSMA values period).getD i none).isSome = true ↔
      i < values.length ∧ period - 1 ≤ i) :=
  ⟨length_range_map _ _,
   warmup_isSome values.length (period - 1)
     (fun j => some (((values.drop (j + 1 - period)).take period).sum / period))
     (fun _ => rfl) i⟩

lemma calcEMA_warmup (values : List ℚ) (period i : ℕ) :
    (calcEMA values period).length = values.length ∧
    (((calcEMA values period).getD i none).isSome = true ↔
      i < values.length ∧ period - 1 ≤ i) :=
  ⟨length_range_map _ _,
   warmup_isSome values.length (period - 1)
     (fun j => some (emaRec values period j)) (fun _ => rfl) i⟩

lemma calcRSI_warmup (data : List KLineData) (period i : ℕ) (hp : 1 ≤ period) :
    (data ≠ [] → (calcRSI data period).length = data.length) ∧
    (((calcRSI data period).getD i none).isSome = true ↔
      period ≤ i ∧ i < data.length) := by
  have hdef : calcRSI data period =
      none :: (List.range (diffs (data.map KLineData.close)).length).map (fun j =>
        if j < period - 1 then none
        else
          if wilderAvg ((diffs (data.map KLineData.close)).map
              (fun c => if c < 0 then -c else 0)) period j = 0 then some 100
          else some (100 - 100 / (1 +
            wilderAvg ((diffs (data.map KLineData.close)).map
              (fun c => if c > 0 then c else 0)) period j /
            wilderAvg ((diffs (data.map KLineData.close)).map
              (fun c => if c < 0 then -c else 0)) period j))) := rfl
  have hcl : (diffs (data.map KLineData.close)).length = data.length - 1 := by
    rw [diffs_length, List.length_map]
  constructor
  · intro hne
    have hpos : 0 < data.length := List.length_pos.mpr hne
    rw [hdef]
    simp only [List.length_cons, List.length_map, List.length_range, hcl]
    omega
  · rw [hdef]
    cases i with
    | zero =>
      rw [List.getD_cons_zero]
      exact iff_of_false (by simp) (by omega)
    | succ q =>
      rw [List.getD_cons_succ]
      refine Iff.trans (warmup_isSome (diffs (data.map KLineData.close)).length (period - 1)
        (fun j =>
          if wilderAvg ((diffs (data.map KLineData.close)).map
              (fun c => if c < 0 then -c else 0)) period j = 0 then some 100
          else some (100 - 100 / (1 +
            wilderAvg ((diffs (data.map KLineData.close)).map
              (fun c => if c > 0 then c else 0)) period j /
            wilderAvg ((diffs (data.map KLineData.close)).map
              (fun c => if c < 0 then -c else 0)) period j)))
        (fun j => by
          by_cases h : wilderAvg ((diffs (data.map KLineData.close)).map
            (fun c => if c < 0 then -c else 0)) period j = 0 <;> simp [h]) q) ?_
      rw [hcl]
      omega

lemma calcKDJ_warmup (data : List KLineData) (period i : ℕ) :
    (calcKDJ data period).k.length = data.length ∧
    (calcKDJ data period).d.length = data.length ∧
    (calcKDJ data period).j.length = data.length ∧
    (((calcKDJ data period).k.getD i none).isSome = true ↔
      i < data.length ∧ period - 1 ≤ i) ∧
    (((calcKDJ data period).d.getD i none).isSome = true ↔
      i < data.length ∧ period - 1 ≤ i) ∧
    (((calcKDJ data period).j.getD i none).isSome = true ↔
      i < data.length ∧ period - 1 ≤ i) :=
  ⟨length_range_map _ _, length_range_map _ _, length_range_map _ _,
   warmup_isSome data.length (period - 1)
     (fun j => some ((kdjPrev data period (j + 1)).1)) (fun _ => rfl) i,
   warmup_isSome data.length (period - 1)
     (fun j => some ((kdjPrev data period (j + 1)).2)) (fun _ => rfl) i,
   warmup_isSome data.length (period - 1)
     (fun j => some (3 * (kdjPrev data period (j + 1)).1 -
       2 * (kdjPrev data period (j + 1)).2)) (fun _ => rfl) i⟩

lemma boll_band_isSome (sqrtFn : ℚ → ℚ) (closes : List ℚ) (period : ℕ)
    (multiplier sign : ℚ) (i : ℕ) :
    ((((List.range closes.length).map (fun j =>
        match (calcSMA closes period).getD j none with
        | none => none
        | some m => some (m + sign * multiplier * sqrtFn
            ((((closes.drop (j + 1 - period)).take period).map
              (fun c => (c - m) ^ 2)).sum / period)))).getD i none).isSome = true ↔
      i < closes.length ∧ period - 1 ≤ i) := by
  have hs : ((calcSMA closes period).getD i none).isSome = true ↔
      i < closes.length ∧ period - 1 ≤ i :=
    warmup_isSome closes.length (period - 1)
      (fun j => some (((closes.drop (j + 1 - period)).take period).sum / period))
      (fun _ => rfl) i
  by_cases hi : i < closes.length
  · rw [getD_range_map _ _ hi]
    rcases h : (calcSMA closes period).getD i none with _ | m
    · refine iff_of_false (by simp) (fun hc => ?_)
      rw [h] at hs
      exact absurd (hs.mpr hc) (by simp)
    · refine iff_of_true rfl ?_
      rw [h] at hs
      exact hs.mp rfl
  · rw [getD_range_map_ge _ _ (not_lt.mp hi)]
    exact iff_of_false (by simp) (by omega)

lemma calcBOLL_warmup (sqrtFn : ℚ → ℚ) (data : List KLineData) (period : ℕ)
    (multiplier : ℚ) (i : ℕ) :
    (calcBOLL sqrtFn data period multiplier).upper.length = data.length ∧
    (calcBOLL sqrtFn data period multiplier).middle.length = data.length ∧
    (calcBOLL sqrtFn data period multiplier).lower.length = data.length ∧
    (((calcBOLL sqrtFn data period multiplier).upper.getD i none).isSome = true ↔
      i < data.length ∧ period - 1 ≤ i) ∧
    (((calcBOLL sqrtFn data period multiplier).middle.getD i none).isSome = true ↔
      i < data.length ∧ period - 1 ≤ i) ∧
    (((calcBOLL sqrtFn data period multiplier).lower.getD i none).isSome = true ↔
      i < data.length ∧ period - 1 ≤ i) := by
  have hu : (calcBOLL sqrtFn data period multiplier).upper =
      (List.range (data.map KLineData.close).length).map (fun j =>
        match (calcSMA (data.map KLineData.close) period).getD j none with
        | none => none
        | some m => some (m + 1 * multiplier * sqrtFn
            (((((data.map KLineData.close).drop (j + 1 - period)).take period).map
              (fun c => (c - m) ^ 2)).sum / period))) := rfl
  have hlo : (calcBOLL sqrtFn data period multiplier).lower =
      (List.range (data.map KLineData.close).length).map (fun j =>
        match (calcSMA (data.map KLineData.close) period).getD j none with
        | none => none
        | some m => some (m + (-1) * multiplier * sqrtFn
            (((((data.map KLineData.close).drop (j + 1 - period)).take period).map
              (fun c => (c - m) ^ 2)).sum / period))) := rfl
  have hm : (calcBOLL sqrtFn data period multiplier).middle =
      calcSMA (data.map KLineData.close) period := rfl
  refine ⟨?_, ?_, ?_, ?_, ?_, ?_⟩
  · rw [hu]; simp
  · rw [hm]; simp [calcSMA]
  · rw [hlo]; simp
  · rw [hu]
    refine Iff.trans
      (boll_band_isSome sqrtFn (data.map KLineData.close) period multiplier 1 i) ?_
    rw [List.length_map]
  · rw [hm]
    refine Iff.trans ((calcSMA_warmup (data.map KLineData.close) period i).2) ?_
    rw [List.length_map]
  · rw [hlo]
    refine Iff.trans
      (boll_band_isSome sqrtFn (data.map KLineData.close) period multiplier (-1) i) ?_
    rw [List.length_map]

lemma calcVWAP_warmup (data : List KLineData) (period i : ℕ) :
    (calcVWAP data period).length = data.length ∧
    (((calcVWAP data period).getD i none).isSome = true ↔
      i < data.length ∧ period - 1 ≤ i ∧
        (((data.drop (i + 1 - period)).take period).map KLineData.volume).sum ≠ 0) := by
  have hv : calcVWAP data period = (List.range data.length).map (fun j =>
      if j < period - 1 then none
      else
        if (((data.drop (j + 1 - period)).take period).map KLineData.volume).sum = 0
        then none
        else some ((((data.drop (j + 1 - period)).take period).map
            (fun b => (b.high + b.low + b.close) / 3 * b.volume)).sum /
          (((data.drop (j + 1 - period)).take period).map KLineData.volume).sum)) := rfl
  constructor
  · rw [hv]; exact length_range_map _ _
  · rw [hv]
    by_cases hi : i < data.length
    · rw [getD_range_map _ _ hi]
      by_cases hp : i < period - 1
      · rw [if_pos hp]
        exact iff_of_false (by simp) (fun hc => absurd hc.2.1 (by omega))
      · rw [if_neg hp]
        by_cases hz : (((data.drop (i + 1 - period)).take period).map KLineData.volume).sum = 0
        · rw [if_pos hz]
          exact iff_of_false (by simp) (fun hc => hc.2.2 hz)
        · rw [if_neg hz]
          exact iff_of_true rfl ⟨hi, by omega, hz⟩
    · rw [getD_range_map_ge _ _ (not_lt.mp hi)]
      exact iff_of_false (by simp) (fun hc => hi hc.1)

lemma calcATR_warmup (data : List KLineData) (period i : ℕ) :
    (calcATR data period).length = data.length ∧
    (((calcATR data period).getD i none).isSome = true ↔
      2 ≤ data.length ∧ i < data.length ∧ period - 1 ≤ i) := by
  constructor
  · unfold calcATR
    by_cases h2 : data.length < 2
    · rw [if_pos h2]; simp
    · rw [if_neg h2]
      dsimp only
      rw [length_range_map, trueRanges_length]
  · by_cases h2 : data.length < 2
    · have hnone : (calcATR data period).getD i none = none := by
        unfold calcATR
        rw [if_pos h2, List.getD_eq_getElem?_getD, List.getElem?_map]
        rcases hdi : data[i]? with _ | b <;> rfl
      rw [hnone]
      exact iff_of_false (by simp) (fun hc => absurd hc.1 (by omega))
    · unfold calcATR
      rw [if_neg h2]
      dsimp only
      refine Iff.trans (warmup_isSome (trueRanges data).length (period - 1)
        (fun j => some (wilderAvg (trueRanges data) period j)) (fun _ => rfl) i) ?_
      rw [trueRanges_length]
      omega

/-- Warm-up characterization of `calcMACD`: `dif` is defined from index
`max(fast,slow) − 1`; `dea`/`histogram` only `signal − 1` defined-`dif`
entries later, because the signal EMA is computed over the compacted
defined-`dif` subsequence and re-aligned. -/
lemma calcMACD_warmup (data : List KLineData) (fastPeriod slowPeriod signalPeriod i : ℕ) :
    (calcMACD data fastPeriod slowPeriod signalPeriod).dif.length = data.length ∧
    (calcMACD data fastPeriod slowPeriod signalPeriod).dea.length = data.length ∧
    (calcMACD data fastPeriod slowPeriod signalPeriod).histogram.length = data.length ∧
    (((calcMACD data fastPeriod slowPeriod signalPeriod).dif.getD i none).isSome = true ↔
      i < data.length ∧ max (fastPeriod - 1) (slowPeriod - 1) ≤ i) ∧
    (((calcMACD data fastPeriod slowPeriod signalPeriod).dea.getD i none).isSome = true ↔
      i < data.length ∧
        max (fastPeriod - 1) (slowPeriod - 1) + (signalPeriod - 1) ≤ i) ∧
    (((calcMACD data fastPeriod slowPeriod signalPeriod).histogram.getD i none).isSome = true ↔
      i < data.length ∧
        max (fastPeriod - 1) (slowPeriod - 1) + (signalPeriod - 1) ≤ i) := by
  set w := max (fastPeriod - 1) (slowPeriod - 1) with hw
  set n := data.length with hn
  have Hw1 : fastPeriod - 1 ≤ w := le_max_left _ _
  have Hw2 : slowPeriod - 1 ≤ w := le_max_right _ _
  have Hw3 : w = fastPeriod - 1 ∨ w = slowPeriod - 1 := max_choice _ _
  have Hm1 : min w n ≤ w := min_le_left _ _
  have Hm2 : min w n ≤ n := min_le_right _ _
  have Hm3 : min w n = w ∨ min w n = n := min_choice _ _
  have hclen : (data.map KLineData.close).length = n := by
    rw [List.length_map, hn]
  have hL : (calcMACD data fastPeriod slowPeriod signalPeriod).dif =
      (List.range (data.map KLineData.close).length).map (fun j =>
        match (calcEMA (data.map KLineData.close) fastPeriod).getD j none,
          (calcEMA (data.map KLineData.close) slowPeriod).getD j none with
        | some f, some s => some (f - s)
        | _, _ => none) := rfl
  have hshape : (calcMACD data fastPeriod slowPeriod signalPeriod).dif =
      List.replicate (min w n) none ++
        ((List.range (n - w)).map
          (fun k => emaRec (data.map KLineData.close) fastPeriod (w + k) -
            emaRec (data.map KLineData.close) slowPeriod (w + k))).map some := by
    rw [hL]
    apply List.ext_getElem?
    intro j
    by_cases hj : j < n
    · rw [getElem?_range_map _ (by rw [hclen]; exact hj)]
      rw [calcEMA_getD _ _ _ (by rw [hclen]; exact hj),
        calcEMA_getD _ _ _ (by rw [hclen]; exact hj)]
      by_cases hjw : j < w
      · by_cases hjf : j < fastPeriod - 1
        · rw [if_pos hjf,
            List.getElem?_append_left (by rw [List.length_replicate]; omega),
            List.getElem?_replicate, if_pos (show j < min w n by omega)]
        · rw [if_neg hjf, if_pos (show j < slowPeriod - 1 by omega),
            List.getElem?_append_left (by rw [List.length_replicate]; omega),
            List.getElem?_replicate, if_pos (show j < min w n by omega)]
      · rw [if_neg (show ¬ j < fastPeriod - 1 by omega),
          if_neg (show ¬ j < slowPeriod - 1 by omega)]
        rw [List.getElem?_append_right (by rw [List.length_replicate]; omega),
          List.length_replicate, List.getElem?_map,
          getElem?_range_map _ (show j - min w n < n - w by omega)]
        simp only [Option.map_some']
        rw [show w + (j - min w n) = j by omega]
    · rw [List.getElem?_eq_none (by
        rw [List.length_map, List.length_range, hclen]; omega)]
      rw [List.getElem?_eq_none (by
        rw [List.length_append, List.length_replicate, List.length_map,
          List.length_map, List.length_range]; omega)]
  have hfm : ((List.replicate (min w n) (none : Option ℚ) ++
      ((List.range (n - w)).map
        (fun k => emaRec (data.map KLineData.close) fastPeriod (w + k) -
          emaRec (data.map KLineData.close) slowPeriod (w + k))).map some).filterMap id) =
      (List.range (n - w)).map
        (fun k => emaRec (data.map KLineData.close) fastPeriod (w + k) -
          emaRec (data.map KLineData.close) slowPeriod (w + k)) := by
    rw [List.filterMap_append, filterMap_id_replicate, List.nil_append,
      List.filterMap_map, Function.id_comp, List.filterMap_some]
  have hxslen : ((List.range (n - w)).map
      (fun k => emaRec (data.map KLineData.close) fastPeriod (w + k) -
        emaRec (data.map KLineData.close) slowPeriod (w + k))).length = n - w := by
    rw [List.length_map, List.length_range]
  have hdea0 : (calcMACD data fastPeriod slowPeriod signalPeriod).dea =
      (macdAlign (calcMACD data fastPeriod slowPeriod signalPeriod).dif
        (calcEMA ((calcMACD data fastPeriod slowPeriod signalPeriod).dif.filterMap id)
          signalPeriod)).1 := rfl
  have hhist0 : (calcMACD data fastPeriod slowPeriod signalPeriod).histogram =
      (macdAlign (calcMACD data fastPeriod slowPeriod signalPeriod).dif
        (calcEMA ((calcMACD data fastPeriod slowPeriod signalPeriod).dif.filterMap id)
          signalPeriod)).2 := rfl
  have hlen_dif : (calcMACD data fastPeriod slowPeriod signalPeriod).dif.length = n := by
    rw [hL, List.length_map, List.length_range, hclen]
  refine ⟨hlen_dif, ?_, ?_, ?_, ?_, ?_⟩
  · rw [hdea0, (macdAlign_len _ _).1, hlen_dif]
  · rw [hhist0, (macdAlign_len _ _).2, hlen_dif]
  · -- dif definedness
    rw [hshape]
    by_cases hia : i < min w n
    · rw [List.getD_eq_getElem?_getD,
        List.getElem?_append_left (by rw [List.length_replicate]; exact hia),
        List.getElem?_replicate, if_pos hia]
      exact iff_of_false (by simp) (by omega)
    · rw [List.getD_eq_getElem?_getD,
        List.getElem?_append_right (by rw [List.length_replicate]; omega),
        List.length_replicate, List.getElem?_map]
      by_cases hk : i - min w n < n - w
      · rw [getElem?_range_map _ hk]
        simp only [Option.map_some', Option.getD_some]
        exact iff_of_true rfl (by omega)
      · rw [List.getElem?_eq_none (by rw [List.length_map, List.length_range]; omega)]
        exact iff_of_false (by simp) (by omega)
  · -- dea definedness
    rw [hdea0, hshape, hfm, macdAlign_none_prefix]
    by_cases hia : i < min w n
    · rw [List.getD_eq_getElem?_getD,
        List.getElem?_append_left (by rw [List.length_replicate]; exact hia),
        List.getElem?_replicate, if_pos hia]
      exact iff_of_false (by simp) (by omega)
    · rw [List.getD_eq_getElem?_getD,
        List.getElem?_append_right (by rw [List.length_replicate]; omega),
        List.length_replicate, (macdAlign_somes _ _ _).1, hxslen]
      by_cases hk : i - min w n < n - w
      · rw [if_pos hk, Option.getD_some,
          calcEMA_getD _ _ _ (by rw [hxslen]; exact hk)]
        by_cases hks : i - min w n < signalPeriod - 1
        · rw [if_pos hks]
          exact iff_of_false (by simp) (by omega)
        · rw [if_neg hks]
          exact iff_of_true rfl (by omega)
      · rw [if_neg hk, Option.getD_none]
        exact iff_of_false (by simp) (by omega)
  · -- histogram definedness
    rw [hhist0, hshape, hfm, macdAlign_none_prefix]
    by_cases hia : i < min w n
    · rw [List.getD_eq_getElem?_getD,
        List.getElem?_append_left (by rw [List.length_replicate]; exact hia),
        List.getElem?_replicate, if_pos hia]
      exact iff_of_false (by simp) (by omega)
    · rw [List.getD_eq_getElem?_getD,
        List.getElem?_append_right (by rw [List.length_replicate]; omega),
        List.length_replicate, (macdAlign_somes _ _ _).2, hxslen]
      by_cases hk : i - min w n < n - w
      · rw [if_pos hk, Option.getD_some,
          calcEMA_getD _ _ _ (by rw [hxslen]; exact hk)]
        by_cases hks : i - min w n < signalPeriod - 1
        · rw [if_pos hks]
          exact iff_of_false (by simp) (by omega)
        · rw [if_neg hks]
          exact iff_of_true rfl (by omega)
      · rw [if_neg hk, Option.getD_none]
        exact iff_of_false (by simp) (by omega)

/-- C5 counterexample: with `period = 14`, RSI at index `13 = period − 1`
of a 20-bar strictly increasing series is absent (the series prepends a
`null` for index 0), contradicting the claim that entry `period − 1`
onward are always defined. -/
theorem indicator_warmup_counterexample :
    (calcRSI incBars 14).getD 13 none = none ∧ 13 = 14 - 1 ∧ 13 < incBars.length := by
  refine ⟨by with_unfolding_all decide, rfl, by decide⟩

/-- C5 amended: per-indicator definedness. SMA/EMA/KDJ/BOLL follow the
claimed `period − 1` warm-up rule; RSI is shifted one index late
(defined from index `period`); VWAP additionally requires a nonzero
window volume; ATR is entirely absent on fewer than 2 bars; MACD `dif`
starts at `max(fast,slow) − 1` and `dea`/`histogram` a further
`signal − 1` entries later.  All series have the input's length, except
`calcRSI []` which has length 1. -/
theorem indicator_warmup_amended :
    (∀ (values : List ℚ) (period i : ℕ),
      (calcSMA values period).length = values.length ∧
      (((calcSMA values period).getD i none).isSome = true ↔
        i < values.length ∧ period - 1 ≤ i)) ∧
    (∀ (values : List ℚ) (period i : ℕ),
      (calcEMA values period).length = values.length ∧
      (((calcEMA values period).getD i none).isSome = true ↔
        i < values.length ∧ period - 1 ≤ i)) ∧
    (∀ (data : List KLineData) (period i : ℕ), 1 ≤ period →
      (data ≠ [] → (calcRSI data period).length = data.length) ∧
      (((calcRSI data period).getD i none).isSome = true ↔
        period ≤ i ∧ i < data.length)) ∧
    (∀ (data : List KLineData) (period i : ℕ),
      (calcKDJ data period).k.length = data.length ∧
      (calcKDJ data period).d.length = data.length ∧
      (calcKDJ data period).j.length = data.length ∧
      (((calcKDJ data period).k.getD i none).isSome = true ↔
        i < data.length ∧ period - 1 ≤ i) ∧
      (((calcKDJ data period).d.getD i none).isSome = true ↔
        i < data.length ∧ period - 1 ≤ i) ∧
      (((calcKDJ data period).j.getD i none).isSome = true ↔
        i < data.length ∧ period - 1 ≤ i)) ∧
    (∀ (sqrtFn : ℚ → ℚ) (data : List KLineData) (period : ℕ) (multiplier : ℚ) (i : ℕ),
      (calcBOLL sqrtFn data period multiplier).upper.length = data.length ∧
      (calcBOLL sqrtFn data period multiplier).middle.length = data.length ∧
      (calcBOLL sqrtFn data period multiplier).lower.length = data.length ∧
      (((calcBOLL sqrtFn data period multiplier).upper.getD i none).isSome = true ↔
        i < data.length ∧ period - 1 ≤ i) ∧
      (((calcBOLL sqrtFn data period multiplier).middle.getD i none).isSome = true ↔
        i < data.length ∧ period - 1 ≤ i) ∧
      (((calcBOLL sqrtFn data period multiplier).lower.getD i none).isSome = true ↔
        i < data.length ∧ period - 1 ≤ i)) ∧
    (∀ (data : List KLineData) (period i : ℕ),
      (calcVWAP data period).length = data.length ∧
      (((calcVWAP data period).getD i none).isSome = true ↔
        i < data.length ∧ period - 1 ≤ i ∧
          (((data.drop (i + 1 - period)).take period).map KLineData.volume).sum ≠ 0)) ∧
    (∀ (data : List KLineData) (period i : ℕ),
      (calcATR data period).length = data.length ∧
      (((calcATR data period).getD i none).isSome = true ↔
        2 ≤ data.length ∧ i < data.length ∧ period - 1 ≤ i)) ∧
    (∀ (data : List KLineData) (fastPeriod slowPeriod signalPeriod i : ℕ),
      (calcMACD data fastPeriod slowPeriod signalPeriod).dif.length = data.length ∧
      (calcMACD data fastPeriod slowPeriod signalPeriod).dea.length = data.length ∧
      (calcMACD data fastPeriod slowPeriod signalPeriod).histogram.length = data.length ∧
      (((calcMACD data fastPeriod slowPeriod signalPeriod).dif.getD i none).isSome = true ↔
        i < data.length ∧ max (fastPeriod - 1) (slowPeriod - 1) ≤ i) ∧
      (((calcMACD data fastPeriod slowPeriod signalPeriod).dea.getD i none).isSome = true ↔
        i < data.length ∧
          max (fastPeriod - 1) (slowPeriod - 1) + (signalPeriod - 1) ≤ i) ∧
      (((calcMACD data fastPeriod slowPeriod signalPeriod).histogram.getD i
          none).isSome = true ↔
        i < data.length ∧
          max (fastPeriod - 1) (slowPeriod - 1) + (signalPeriod - 1) ≤ i)) :=
  ⟨calcSMA_warmup, calcEMA_warmup,
   fun data period i hp => calcRSI_warmup data period i hp,
   calcKDJ_warmup, calcBOLL_warmup, calcVWAP_warmup, calcATR_warmup, calcMACD_warmup⟩

/-- Witness for C5: RSI of the increasing 20-bar series is defined at
output index 14 (= its `period`), per the amended rule. -/
theorem indicator_warmup_amended_witness :
    ((calcRSI incBars 14).getD 14 none).isSome = true ∧ (1 : ℕ) ≤ 14 :=
  ⟨(indicator_warmup_amended.2.2.1 incBars 14 14 (by norm_num)).2.mpr
    ⟨by norm_num, by decide⟩, by norm_num⟩


-- ==================== C7 ====================

set_option maxRecDepth 40000 in
/-- C7 counterexample: on the spec's flat 60-bar example the volume
score is −10 (the OBV trend is flat but the last close does not exceed
the 20-bar VWAP of typical prices `(101+99+100)/3 = 100` — it equals it,
and the code's `else` branch yields −10), so the composite total is −10,
not the claimed 0. -/
theorem runAnalysis_flat_counterexample :
    (runAnalysis constBars).map (fun r => r.signal.volume) = some (-10) ∧
    ¬ ((-10 : ℚ) = 0) ∧
    (runAnalysis constBars).map (fun r => r.signal.total) = some (-10) :=
  ⟨by with_unfolding_all decide, by norm_num, by with_unfolding_all decide⟩

set_option maxRecDepth 40000 in
/-- C7 amended: on the flat 60-bar series the trend, oscillator and
support/resistance scores are 0 as claimed, but the volume score is −10
(close equals VWAP, so the strict `>` test fails), hence total −10; the
level is still neutral and the trade plan still null. -/
theorem runAnalysis_flat_amended :
    (runAnalysis constBars).map (fun r => r.signal.trend) = some 0 ∧
    (runAnalysis constBars).map (fun r => r.signal.oscillator) = some 0 ∧
    (runAnalysis constBars).map (fun r => r.signal.volume) = some (-10) ∧
    (runAnalysis constBars).map (fun r => r.signal.supportResistance) = some 0 ∧
    (runAnalysis constBars).map (fun r => r.signal.total) = some (-10) ∧
    (runAnalysis constBars).map (fun r => r.signal.level) = some SignalLevel.neutral ∧
    (runAnalysis constBars).map (fun r => r.tradePlan) = some none :=
  ⟨by with_unfolding_all decide, by with_unfolding_all decide,
   by with_unfolding_all decide, by with_unfolding_all decide,
   by with_unfolding_all decide, by with_unfolding_all decide,
   by with_unfolding_all decide⟩

-- ==================== C1 ====================

lemma calcTrendScore_mem (data : List KLineData) :
    -40 ≤ calcTrendScore data ∧ calcTrendScore data ≤ 40 := by
  unfold calcTrendScore
  dsimp only
  exact clamp_le_le _ _ _ (by norm_num)

lemma calcOscillatorScore_mem (data : List KLineData) :
    -30 ≤ calcOscillatorScore data ∧ calcOscillatorScore data ≤ 30 := by
  unfold calcOscillatorScore
  dsimp only
  exact clamp_le_le _ _ _ (by norm_num)

lemma calcVolumeScore_mem (data : List KLineData) :
    -20 ≤ calcVolumeScore data ∧ calcVolumeScore data ≤ 20 := by
  unfold calcVolumeScore
  dsimp only
  exact clamp_le_le _ _ _ (by norm_num)

lemma calcSRScore_mem (p : ℚ) (sr : SRLevels) (b : Bool) :
    -10 ≤ calcSRScore p sr b ∧ calcSRScore p sr b ≤ 10 := by
  unfold calcSRScore
  dsimp only
  split
  · norm_num
  · exact clamp_le_le _ _ _ (by norm_num)

/-- C1: for any series of at least 60 bars, `runAnalysis` succeeds, the
total is exactly the sum of the four dimension scores, each dimension
score lies within its stated bound (±40/±30/±20/±10) and hence the total
lies in [−100, 100]. -/
theorem runAnalysis_score_decomposition :
    ∀ data : List KLineData, 60 ≤ data.length →
      ∃ r, runAnalysis data = some r ∧
        r.signal.total = r.signal.trend + r.signal.oscillator + r.signal.volume +
          r.signal.supportResistance ∧
        (-40 ≤ r.signal.trend ∧ r.signal.trend ≤ 40) ∧
        (-30 ≤ r.signal.oscillator ∧ r.signal.oscillator ≤ 30) ∧
        (-20 ≤ r.signal.volume ∧ r.signal.volume ≤ 20) ∧
        (-10 ≤ r.signal.supportResistance ∧ r.signal.supportResistance ≤ 10) ∧
        (-100 ≤ r.signal.total ∧ r.signal.total ≤ 100) := by
  intro data hlen
  obtain ⟨r, hr⟩ : ∃ r, runAnalysis data = some r := by
    unfold runAnalysis
    rw [if_neg (show ¬ data.length < 60 by omega)]
    exact ⟨_, rfl⟩
  have hr2 := hr
  unfold runAnalysis at hr2
  rw [if_neg (show ¬ data.length < 60 by omega)] at hr2
  dsimp only at hr2
  injection hr2 with hrec
  subst hrec
  refine ⟨_, hr, rfl, calcTrendScore_mem data, calcOscillatorScore_mem data,
    calcVolumeScore_mem data, calcSRScore_mem _ _ _, ?_⟩
  have h1 := calcTrendScore_mem data
  have h2 := calcOscillatorScore_mem data
  have h3 := calcVolumeScore_mem data
  have h4 := calcSRScore_mem ((data.getD (data.length - 1) defaultBar).close)
    (calcSupportResistance data)
    (decide (5 ≤ data.length ∧
      (data.getD (data.length - 1) defaultBar).volume >
        ((data.getD (data.length - 2) defaultBar).volume +
          (data.getD (data.length - 3) defaultBar).volume) / 2))
  constructor
  · show -100 ≤ calcTrendScore data + calcOscillatorScore data + calcVolumeScore data +
      calcSRScore ((data.getD (data.length - 1) defaultBar).close)
        (calcSupportResistance data)
        (decide (5 ≤ data.length ∧
          (data.getD (data.length - 1) defaultBar).volume >
            ((data.getD (data.length - 2) defaultBar).volume +
              (data.getD (data.length - 3) defaultBar).volume) / 2))
    linarith [h1.1, h2.1, h3.1, h4.1]
  · show calcTrendScore data + calcOscillatorScore data + calcVolumeScore data +
      calcSRScore ((data.getD (data.length - 1) defaultBar).close)
        (calcSupportResistance data)
        (decide (5 ≤ data.length ∧
          (data.getD (data.length - 1) defaultBar).volume >
            ((data.getD (data.length - 2) defaultBar).volume +
              (data.getD (data.length - 3) defaultBar).volume) / 2)) ≤ 100
    linarith [h1.2, h2.2, h3.2, h4.2]

/-- Witness for C1 at the flat 60-bar series. -/
theorem runAnalysis_score_decomposition_witness :
    60 ≤ constBars.length ∧
    (∃ r, runAnalysis constBars = some r ∧
      r.signal.total = r.signal.trend + r.signal.oscillator + r.signal.volume +
        r.signal.supportResistance ∧
      (-40 ≤ r.signal.trend ∧ r.signal.trend ≤ 40) ∧
      (-30 ≤ r.signal.oscillator ∧ r.signal.oscillator ≤ 30) ∧
      (-20 ≤ r.signal.volume ∧ r.signal.volume ≤ 20) ∧
      (-10 ≤ r.signal.supportResistance ∧ r.signal.supportResistance ≤ 10) ∧
      (-100 ≤ r.signal.total ∧ r.signal.total ≤ 100)) :=
  ⟨by decide, runAnalysis_score_decomposition constBars (by decide)⟩

-- ==================== C3 ====================

lemma calcATRStopLoss_isSome (data : List KLineData) (hlen : 60 ≤ data.length) :
    ∃ st, calcATRStopLoss data = some st := by
  have h1 : (calcATR data 14).getLast? =
      some (some (wilderAvg (trueRanges data) 14 (data.length - 1))) := by
    unfold calcATR
    rw [if_neg (by omega)]
    dsimp only
    rw [getLast?_range_map _ (by rw [trueRanges_length]; omega), trueRanges_length,
      if_neg (show ¬ data.length - 1 < 14 - 1 by omega)]
  have hne : data ≠ [] := by
    intro hcon
    rw [hcon] at hlen
    simp at hlen
  obtain ⟨b, hb⟩ := Option.isSome_iff_exists.mp (List.getLast?_isSome.mpr hne)
  unfold calcATRStopLoss
  rw [h1, hb]
  exact ⟨_, rfl⟩

lemma calcPositionSize_mem (e s : ℚ) (he : 0 < e) :
    0 ≤ calcPositionSize e s ∧ calcPositionSize e s ≤ 1/4 := by
  unfold calcPositionSize
  dsimp only
  split
  · norm_num
  · rename_i hne
    constructor
    · exact le_min (div_nonneg (by positivity) (abs_nonneg _)) (by norm_num)
    · exact min_le_right _ _

lemma jsRound_250 : jsRound 250 = 250 := by
  unfold jsRound
  norm_num

lemma pct_bounds (e s : ℚ) (he : 0 < e) :
    0 ≤ jsRound (calcPositionSize e s * 100 * 10) / 10 ∧
    jsRound (calcPositionSize e s * 100 * 10) / 10 ≤ 25 := by
  have h := calcPositionSize_mem e s he
  constructor
  · exact div_nonneg (jsRound_nonneg (by nlinarith [h.1])) (by norm_num)
  · have hb : jsRound (calcPositionSize e s * 100 * 10) ≤ 250 :=
      jsRound_le jsRound_250 (by nlinarith [h.2])
    linarith

lemma rr_nonneg (a b c : ℚ) : 0 ≤ jsRound (|a - b| / |b - c| * 100) / 100 :=
  div_nonneg (jsRound_nonneg (by positivity)) (by norm_num)

/-- C3 counterexample: on the all-negative-price 60-bar series the
generated plan has `positionSizePct = −207.1 ∉ [0, 25]` (the position
formula is not clamped below when the entry price is negative). -/
theorem tradePlan_pct_counterexample :
    (runAnalysis descBars).map (fun r => r.tradePlan.map (fun p => p.positionSizePct)) =
      some (some (-2071/10)) ∧ ¬ (0 ≤ (-2071/10 : ℚ)) := by
  constructor
  · have h := runAnalysis_descBars_plan
    rcases hra : runAnalysis descBars with _ | r
    · rw [hra] at h
      exact Option.noConfusion h
    · rw [hra] at h
      simp only [Option.map_some'] at h ⊢
      have hplan : r.tradePlan = some descPlan := by injection h
      rw [hplan]
      rfl
  · norm_num

/-- C3 amended: for any 60-bar-plus series the plan is null exactly when
the signal is neutral; a produced plan always has `riskRewardRatio ≥ 0`,
and `positionSizePct ∈ [0, 25]` holds under the added hypothesis that
the entry price is positive; the position fraction is
`min(0.02·entry/|entry−stop|, 0.25)` with the zero-risk case mapped to
0. -/
theorem tradePlan_properties :
    (∀ data : List KLineData, 60 ≤ data.length →
      ∃ r, runAnalysis data = some r ∧
        (r.tradePlan = none ↔ r.signal.level = SignalLevel.neutral) ∧
        (∀ p, r.tradePlan = some p → 0 ≤ p.riskRewardRatio ∧
          (0 < p.entryPrice → 0 ≤ p.positionSizePct ∧ p.positionSizePct ≤ 25))) ∧
    (∀ e : ℚ, calcPositionSize e e = 0) ∧
    (∀ e s : ℚ, e ≠ s → calcPositionSize e s = min (1/50 * e / |e - s|) (1/4)) := by
  refine ⟨?_, ?_, ?_⟩
  · intro data hlen
    obtain ⟨r, hr⟩ : ∃ r, runAnalysis data = some r := by
      unfold runAnalysis
      rw [if_neg (show ¬ data.length < 60 by omega)]
      exact ⟨_, rfl⟩
    have hr2 := hr
    unfold runAnalysis at hr2
    rw [if_neg (show ¬ data.length < 60 by omega)] at hr2
    dsimp only at hr2
    injection hr2 with hrec
    subst hrec
    refine ⟨_, hr, ?_, ?_⟩
    · dsimp only
      unfold generateTradePlan
      by_cases hl : (classifySignal (calcTrendScore data + calcOscillatorScore data +
          calcVolumeScore data +
          calcSRScore ((data.getD (data.length - 1) defaultBar).close)
            (calcSupportResistance data)
            (decide (5 ≤ data.length ∧
              (data.getD (data.length - 1) defaultBar).volume >
                ((data.getD (data.length - 2) defaultBar).volume +
                  (data.getD (data.length - 3) defaultBar).volume) / 2)))).1 =
          SignalLevel.neutral
      · rw [if_pos hl]
        exact iff_of_true rfl hl
      · rw [if_neg hl]
        obtain ⟨st, hst⟩ := calcATRStopLoss_isSome data hlen
        rw [hst]
        exact iff_of_false (by simp) hl
    · intro p hp
      have hp' := hp
      dsimp only at hp'
      unfold generateTradePlan at hp'
      by_cases hl : (classifySignal (calcTrendScore data + calcOscillatorScore data +
          calcVolumeScore data +
          calcSRScore ((data.getD (data.length - 1) defaultBar).close)
            (calcSupportResistance data)
            (decide (5 ≤ data.length ∧
              (data.getD (data.length - 1) defaultBar).volume >
                ((data.getD (data.length - 2) defaultBar).volume +
                  (data.getD (data.length - 3) defaultBar).volume) / 2)))).1 =
          SignalLevel.neutral
      · rw [if_pos hl] at hp'
        exact Option.noConfusion hp'
      · rw [if_neg hl] at hp'
        rcases hAtr : calcATRStopLoss data with _ | st
        · rw [hAtr] at hp'
          exact Option.noConfusion hp'
        · rw [hAtr] at hp'
          dsimp only at hp'
          injection hp' with hp2
          subst hp2
          constructor
          · exact rr_nonneg _ _ _
          · intro hpos
            exact pct_bounds _ _ hpos
  · intro e
    unfold calcPositionSize
    simp
  · intro e s hes
    unfold calcPositionSize
    rw [if_neg (abs_ne_zero.mpr (sub_ne_zero.mpr hes))]

/-- Witness for C3 at the flat 60-bar series. -/
theorem tradePlan_properties_witness :
    60 ≤ constBars.length ∧
    ∃ r, runAnalysis constBars = some r ∧
      (r.tradePlan = none ↔ r.signal.level = SignalLevel.neutral) ∧
      (∀ p, r.tradePlan = some p → 0 ≤ p.riskRewardRatio ∧
        (0 < p.entryPrice → 0 ≤ p.positionSizePct ∧ p.positionSizePct ≤ 25)) :=
  ⟨by decide, tradePlan_properties.1 constBars (by decide)⟩

end MCT
